import Mathlib

set_option maxRecDepth 40000

/-!
Verification of the UAGC SEO/CRO QBR chart scripts.

The repository consists of three Python scripts (`create_charts.py`,
`create_final_charts.py`, `create_enhanced_charts.py`) that derive
conversion metrics from a CSV with pandas and patch an HTML report by
replacing embedded base64 images with chart markup.

This development shallowly embeds the relevant parts of those scripts:

* pandas float arithmetic is idealised as exact rationals extended with
  the IEEE special values (`+inf`, `-inf`, `NaN`) that pandas produces on
  zero-denominator division; `round` is round-half-to-even on exact
  rationals, mirroring Python's `round`;
* DataFrame rows become Lean structures, column operations become list
  operations, `nlargest`/`nsmallest` become stable merge sorts (pandas'
  `keep='first'` tie policy), and boolean-mask filtering becomes
  `List.filter`;
* the HTML-patching string operations (`re.findall`, `re.sub(count=1)`,
  `str.replace`, `str.split`, `str.find`, `in`) are embedded over
  `List Char`, including the backtracking, leftmost-greedy semantics of
  the two concrete image regexes the scripts use;
* the filesystem is a map from path to contents and each script run is a
  function on that map.
-/

namespace UAGC

/-- Idealised pandas/NumPy float64 cell: an exact rational, or one of the
special values produced by zero-denominator true division. -/
inductive PFloat where
  | fin (q : ℚ)
  | pinf
  | ninf
  | nan
deriving DecidableEq

/-- pandas/NumPy true division of integer columns (`a / b` after the int64
to float64 cast): exact quotient for a nonzero denominator, and `±inf` /
`NaN` (never an exception) for a zero denominator. -/
def pdiv (a b : ℤ) : PFloat :=
  if b ≠ 0 then .fin ((a : ℚ) / (b : ℚ))
  else if 0 < a then .pinf
  else if a < 0 then .ninf
  else .nan

/-- Multiplication by the scalar `100` (as in `... / sessions * 100`). -/
def pmul100 : PFloat → PFloat
  | .fin q => .fin (q * 100)
  | .pinf => .pinf
  | .ninf => .ninf
  | .nan => .nan

/-- pandas float subtraction, with the IEEE rules for the special values. -/
def psub : PFloat → PFloat → PFloat
  | .nan, _ => .nan
  | _, .nan => .nan
  | .fin a, .fin b => .fin (a - b)
  | .fin _, .pinf => .ninf
  | .fin _, .ninf => .pinf
  | .pinf, .fin _ => .pinf
  | .pinf, .pinf => .nan
  | .pinf, .ninf => .pinf
  | .ninf, .fin _ => .ninf
  | .ninf, .pinf => .ninf
  | .ninf, .ninf => .nan

/-- Round a rational to the nearest integer, ties to even (Python's
`round` / IEEE round-half-even, idealised over exact rationals). -/
def rhalfEven (x : ℚ) : ℤ :=
  if x - (⌊x⌋ : ℚ) < 1/2 then ⌊x⌋
  else if 1/2 < x - (⌊x⌋ : ℚ) then ⌊x⌋ + 1
  else if ⌊x⌋ % 2 = 0 then ⌊x⌋ else ⌊x⌋ + 1

/-- `round(x, p)` on exact rationals: round `x·10^p` half-to-even, then
scale back. -/
def roundQ (p : ℕ) (x : ℚ) : ℚ := (rhalfEven (x * 10 ^ p) : ℚ) / 10 ^ p

/-- pandas `Series.round(p)`: rounds finite cells, keeps `±inf`/`NaN`. -/
def pround (p : ℕ) : PFloat → PFloat
  | .fin q => .fin (roundQ p q)
  | v => v

/-- `series > 0` on a cell (NaN compares false, `+inf > 0` is true). -/
def pgt0 : PFloat → Bool
  | .fin q => decide (0 < q)
  | .pinf => true
  | _ => false

/-- `series < 0` on a cell. -/
def plt0 : PFloat → Bool
  | .fin q => decide (q < 0)
  | .ninf => true
  | _ => false

/-- `series == 0` on a cell (NaN compares false). -/
def peq0 : PFloat → Bool
  | .fin q => decide (q = 0)
  | _ => false

/-- NaN test (pandas' missing-value marker for float columns). -/
def pIsNan : PFloat → Bool
  | .nan => true
  | _ => false

/-- One row of `data/Pre_vs_Post_Request_Information_Submits.csv`. -/
structure RawRow where
  page : String
  sessions_pre : ℤ
  sessions_post : ℤ
  conversions_pre : ℤ
  conversions_post : ℤ
deriving DecidableEq

/-- A row after the derived columns have been added by a `load` function. -/
structure DerivedRow where
  page : String
  sessions_pre : ℤ
  sessions_post : ℤ
  conversions_pre : ℤ
  conversions_post : ℤ
  conversion_rate_pre : PFloat
  conversion_rate_post : PFloat
  conversion_rate_change : PFloat
  conversions_change : ℤ
  sessions_change : ℤ
deriving DecidableEq

/-- The derived-column computation shared by all three scripts, with the
rounding precision `p` as the only difference between them:

    data['conversion_rate_pre']  = (conversions_pre / sessions_pre * 100).round(p)
    data['conversion_rate_post'] = (conversions_post / sessions_post * 100).round(p)
    data['conversion_rate_change'] = (rate_post - rate_pre).round(p)
    data['conversions_change'] = conversions_post - conversions_pre
    data['sessions_change'] = sessions_post - sessions_pre
-/
def deriveRow (p : ℕ) (r : RawRow) : DerivedRow :=
  let rp := pround p (pmul100 (pdiv r.conversions_pre r.sessions_pre))
  let rq := pround p (pmul100 (pdiv r.conversions_post r.sessions_post))
  { page := r.page
    sessions_pre := r.sessions_pre
    sessions_post := r.sessions_post
    conversions_pre := r.conversions_pre
    conversions_post := r.conversions_post
    conversion_rate_pre := rp
    conversion_rate_post := rq
    conversion_rate_change := pround p (psub rq rp)
    conversions_change := r.conversions_post - r.conversions_pre
    sessions_change := r.sessions_post - r.sessions_pre }

/-- `load_data` of `create_charts.py` (lines 19-23): precision 2. -/
def load_data (rows : List RawRow) : List DerivedRow := rows.map (deriveRow 2)

/-- `load_and_process_data` of `create_final_charts.py` (lines 19-23):
precision 4. -/
def load_and_process_data (rows : List RawRow) : List DerivedRow :=
  rows.map (deriveRow 4)

/-- The extra `percent_change_conversions` column of
`create_enhanced_charts.py` line 26:
`((conversions_post / conversions_pre - 1) * 100).round(2)`. -/
def percent_change_conversions (r : RawRow) : PFloat :=
  pround 2 (pmul100 (psub (pdiv r.conversions_post r.conversions_pre) (.fin 1)))

/-- `load_and_process_data` of `create_enhanced_charts.py` (lines 21-26):
precision 4 on the rate columns, plus the percent-change column (returned
alongside each derived row). -/
def load_and_process_data_enhanced (rows : List RawRow) :
    List (DerivedRow × PFloat) :=
  rows.map (fun r => (deriveRow 4 r, percent_change_conversions r))

/-- `data['sessions_pre'].sum()`. -/
def total_sessions_pre (rows : List RawRow) : ℤ :=
  (rows.map (fun r => r.sessions_pre)).sum

/-- `data['sessions_post'].sum()`. -/
def total_sessions_post (rows : List RawRow) : ℤ :=
  (rows.map (fun r => r.sessions_post)).sum

/-- `data['conversions_pre'].sum()`. -/
def total_conversions_pre (rows : List RawRow) : ℤ :=
  (rows.map (fun r => r.conversions_pre)).sum

/-- `data['conversions_post'].sum()`. -/
def total_conversions_post (rows : List RawRow) : ℤ :=
  (rows.map (fun r => r.conversions_post)).sum

/-- `overall_conv_rate_pre = (total_conversions_pre / total_sessions_pre * 100)`
(`create_charts.py` line 40, identically in the other two scripts). -/
def overall_conv_rate_pre (rows : List RawRow) : PFloat :=
  pmul100 (pdiv (total_conversions_pre rows) (total_sessions_pre rows))

/-- `overall_conv_rate_post` (line 41). -/
def overall_conv_rate_post (rows : List RawRow) : PFloat :=
  pmul100 (pdiv (total_conversions_post rows) (total_sessions_post rows))

/-- `conv_rate_change_pp = overall_conv_rate_post - overall_conv_rate_pre`
(line 42). -/
def conv_rate_change_pp (rows : List RawRow) : PFloat :=
  psub (overall_conv_rate_post rows) (overall_conv_rate_pre rows)

/-- Modelled from the spec: the aggregate computation the spec rejects —
the arithmetic mean of the per-row pre-period rates, `sum(rate_i)/n`.
Used only as a contrast against the sum-based aggregate the source
actually computes. -/
def meanOfPerRowRatesPre (rows : List RawRow) : ℚ :=
  ((rows.map
      (fun r => (r.conversions_pre : ℚ) / (r.sessions_pre : ℚ) * 100)).sum)
    / (rows.length : ℚ)

/-- `wins = len(data[data['conversion_rate_change'] > 0])`
(`create_charts.py` line 169, `create_final_charts.py` line 212). -/
def winsCount (ds : List DerivedRow) : ℕ :=
  (ds.filter (fun d => pgt0 d.conversion_rate_change)).length

/-- `losses = len(data[data['conversion_rate_change'] < 0])`. -/
def lossesCount (ds : List DerivedRow) : ℕ :=
  (ds.filter (fun d => plt0 d.conversion_rate_change)).length

/-- `ties = len(data[data['conversion_rate_change'] == 0])`. -/
def tiesCount (ds : List DerivedRow) : ℕ :=
  (ds.filter (fun d => peq0 d.conversion_rate_change)).length

/-- Comparator underlying `DataFrame.sort_values`: a total order on
non-NaN cells (`-inf < finite < +inf`); NaN cells are ordered first, but
they are filtered out before any sort below, matching pandas'
`nlargest`/`nsmallest`, which drop NaN rows. -/
def pfleB : PFloat → PFloat → Bool
  | .nan, _ => true
  | _, .nan => false
  | .ninf, _ => true
  | _, .ninf => false
  | .fin q, .fin r => decide (q ≤ r)
  | .fin _, .pinf => true
  | .pinf, .pinf => true
  | .pinf, .fin _ => false

/-- `DataFrame.nlargest(n, col)` with the default `keep='first'`:
drop NaN keys, stable-sort descending on the key (ties keep original
order), take the first `n`
(`create_final_charts.py` line 168, `create_enhanced_charts.py` line 190). -/
def nlargest {α : Type} (n : ℕ) (key : α → PFloat) (l : List α) : List α :=
  ((l.filter (fun a => !pIsNan (key a))).mergeSort
      (fun a b => pfleB (key b) (key a))).take n

/-- `DataFrame.nsmallest(n, col)` with the default `keep='first'`:
drop NaN keys, stable-sort ascending on the key, take the first `n`
(`create_final_charts.py` line 169, `create_enhanced_charts.py` line 191). -/
def nsmallest {α : Type} (n : ℕ) (key : α → PFloat) (l : List α) : List α :=
  ((l.filter (fun a => !pIsNan (key a))).mergeSort
      (fun a b => pfleB (key a) (key b))).take n

/-- `pd.concat([top_performers, bottom_performers])` as used by
`create_top_performers_chart`: top `j` by change descending followed by
bottom `k` by change ascending. -/
def topBottomConcat (j k : ℕ) (ds : List DerivedRow) : List DerivedRow :=
  nlargest j (fun d => d.conversion_rate_change) ds ++
    nsmallest k (fun d => d.conversion_rate_change) ds

/-- The descending comparator `nlargest` sorts with (on the
`conversion_rate_change` key). -/
def geB (a b : DerivedRow) : Bool :=
  pfleB b.conversion_rate_change a.conversion_rate_change

/-- The ascending comparator `nsmallest` sorts with (on the
`conversion_rate_change` key). -/
def leB (a b : DerivedRow) : Bool :=
  pfleB a.conversion_rate_change b.conversion_rate_change

/-! ## String embedding

The HTML-patching half of the scripts works on Python `str` values; we
embed those as `List Char`. All scanning functions are either structurally
recursive or take an explicit fuel argument initialised to the string
length, so that every definition evaluates by kernel reduction. -/

/-- Python strings, embedded as character lists. -/
abbrev Str := List Char

/-- `pat` is a prefix of `s` (Boolean, by direct recursion). -/
def hasPre : Str → Str → Bool
  | [], _ => true
  | _ :: _, [] => false
  | a :: as, b :: bs => a == b && hasPre as bs

/-- Python `s.find(pat)`: index of the leftmost occurrence (`none` when
absent, where Python returns `-1`). -/
def strFindAux (pat : Str) : Str → Option ℕ
  | [] => if hasPre pat [] then some 0 else none
  | c :: rest =>
    if hasPre pat (c :: rest) then some 0
    else (strFindAux pat rest).map (fun q => q + 1)

/-- Python `pat in s`. -/
def strContains (s pat : Str) : Bool := (strFindAux pat s).isSome

/-- Number of positions `p ≤ s.length` at which `pat` occurs in `s`
(counting overlapping occurrences). -/
def occCount (pat : Str) : Str → ℕ
  | [] => if hasPre pat [] then 1 else 0
  | c :: rest => (if hasPre pat (c :: rest) then 1 else 0) + occCount pat rest

/-- Python `s.replace(old, new, 1)`: replace the leftmost occurrence. -/
def replaceFirst (s old new : Str) : Str :=
  match strFindAux old s with
  | none => s
  | some q => s.take q ++ new ++ s.drop (q + old.length)

/-- Fuel-indexed body of Python `s.replace(old, new)`: scan left to right,
replace every non-overlapping occurrence, never rescanning replacement
text. -/
def replaceAllF (old new : Str) : ℕ → Str → Str
  | _, [] => []
  | 0, s => s
  | fuel + 1, c :: rest =>
    if !old.isEmpty && hasPre old (c :: rest) then
      new ++ replaceAllF old new fuel ((c :: rest).drop old.length)
    else c :: replaceAllF old new fuel rest

/-- Python `s.replace(old, new)` (all occurrences). -/
def replaceAll (old new s : Str) : Str := replaceAllF old new s.length s

/-- Fuel-indexed body of Python `s.split(sep)` for nonempty `sep`. -/
def pySplitF (sep : Str) : ℕ → Str → List Str
  | 0, s => [s]
  | fuel + 1, s =>
    match strFindAux sep s with
    | none => [s]
    | some q => s.take q :: pySplitF sep fuel (s.drop (q + sep.length))

/-- Python `s.split(sep)` (an empty separator raises in Python and is
never used by the scripts; it is mapped to the whole string here). -/
def pySplit (sep s : Str) : List Str :=
  if sep.isEmpty then [s] else pySplitF sep s.length s

/-- Python whitespace, as tested by `str.strip()`. -/
def isPySpace (c : Char) : Bool :=
  c == ' ' || c == '\t' || c == '\n' || c == '\r' || c == '\x0b' || c == '\x0c'

/-- Python `s.strip()`. -/
def pyStrip (s : Str) : Str :=
  ((s.dropWhile isPySpace).reverse.dropWhile isPySpace).reverse

/-! ### The two image regexes

Python `re` for the patterns in the scripts is a backtracking,
leftmost-first engine with greedy quantifiers. Each combinator below
returns the length of a match of its pattern fragment at the head of the
input, trying greedy alternatives longest-first, exactly as the
backtracking engine does for these patterns (character-class quantifiers
only, so longest-first retry is the complete search order). -/

/-- Match a literal, then continue. -/
def litM (lit : Str) (k : Str → Option ℕ) (s : Str) : Option ℕ :=
  if hasPre lit s then (k (s.drop lit.length)).map (fun n => n + lit.length)
  else none

/-- Greedy `[class]*`: consume `i` class characters, longest first. -/
def starM (good : Char → Bool) (k : Str → Option ℕ) (s : Str) : Option ℕ :=
  ((List.range ((s.takeWhile good).length + 1)).reverse).findSome?
    (fun i => (k (s.drop i)).map (fun n => n + i))

/-- Greedy `[class]+`: consume `i ≥ 1` class characters, longest first. -/
def plusM (good : Char → Bool) (k : Str → Option ℕ) (s : Str) : Option ℕ :=
  (((List.range ((s.takeWhile good).length)).reverse).map (fun j => j + 1)).findSome?
    (fun i => (k (s.drop i)).map (fun n => n + i))

/-- Greedy `c?`: try consuming `c`, fall back to not consuming it. -/
def optCharM (c : Char) (k : Str → Option ℕ) (s : Str) : Option ℕ :=
  match s with
  | [] => k []
  | x :: rest =>
    if x == c then
      match k rest with
      | some n => some (n + 1)
      | none => k (x :: rest)
    else k (x :: rest)

/-- The final `>` of both image patterns. -/
def endTagM : Str → Option ℕ := litM ['>'] (fun _ => some 0)

/-- Head literal of `create_charts.py` / `create_enhanced_charts.py`'s
pattern `<img src="data:image/png;base64,[^"]+"\s*/?>`. -/
def imgSimpleLit : Str := "<img src=\"data:image/png;base64,".data

/-- Head literal `<img` of `create_final_charts.py`'s pattern. -/
def imgHeadLit : Str := "<img".data

/-- The `src="data:image/png;base64,` literal inside
`create_final_charts.py`'s pattern
`<img[^>]*src="data:image/png;base64,[^"]+[^>]*/?>`. -/
def srcLit : Str := "src=\"data:image/png;base64,".data

/-- Matcher for `r'<img src="data:image/png;base64,[^"]+"\s*/?>'`
(`create_charts.py` line 214, `create_enhanced_charts.py` line 360) at
the head of the input. -/
def matchSimpleAt : Str → Option ℕ :=
  litM imgSimpleLit (plusM (fun c => !(c == '"'))
    (litM ['"'] (starM isPySpace (optCharM '/' endTagM))))

/-- Matcher for `r'<img[^>]*src="data:image/png;base64,[^"]+[^>]*/?>'`
(`create_final_charts.py` line 248) at the head of the input. -/
def matchFinalAt : Str → Option ℕ :=
  litM imgHeadLit (starM (fun c => !(c == '>'))
    (litM srcLit (plusM (fun c => !(c == '"'))
      (starM (fun c => !(c == '>')) (optCharM '/' endTagM)))))

/-- Fuel-indexed `re.findall`: scan for leftmost non-overlapping matches,
advancing one character when no match begins at the current position.
(The two image patterns never produce a zero-width match; such a match
would advance one position without being recorded here.) -/
def findallAuxF (m : Str → Option ℕ) : ℕ → Str → List Str
  | 0, _ => []
  | _ + 1, [] => []
  | fuel + 1, c :: rest =>
    match m (c :: rest) with
    | some n =>
      if n = 0 then findallAuxF m fuel rest
      else (c :: rest).take n :: findallAuxF m fuel ((c :: rest).drop n)
    | none => findallAuxF m fuel rest

/-- `re.findall(pattern, s)` for a pattern given by its head matcher. -/
def findall (m : Str → Option ℕ) (s : Str) : List Str :=
  findallAuxF m s.length s

/-- `re.sub(pattern, repl, s, count=1)` with a constant replacement (the
scripts use a lambda ignoring the match, so no escape processing
applies): replace the leftmost match, keep the rest unchanged. -/
def subFirst (m : Str → Option ℕ) (repl : Str) : Str → Str
  | [] => []
  | c :: rest =>
    match m (c :: rest) with
    | some n => if n = 0 then c :: rest else repl ++ (c :: rest).drop n
    | none => c :: subFirst m repl rest

/-! ### The patching pipelines -/

/-- `f"__CHART_PLACEHOLDER_{i}__"` (`create_final_charts.py` line 255). -/
def placeholder (i : ℕ) : Str :=
  "__CHART_PLACEHOLDER_".data ++ (Nat.repr i).data ++ "__".data

/-- The replacement loop of `find_and_replace_images`
(`create_final_charts.py` lines 254-256):
`for i, match in enumerate(matches): html = html.replace(match, placeholder(i), 1)`. -/
def phReplaceLoop (i : ℕ) : List Str → Str → Str
  | [], acc => acc
  | mtch :: ms, acc => phReplaceLoop (i + 1) ms (replaceFirst acc mtch (placeholder i))

/-- `find_and_replace_images` (`create_final_charts.py` lines 244-258):
find all matches of the flexible image pattern, replace the i-th match
(leftmost occurrence of its text) with the i-th placeholder, and return
the new document together with the match count. -/
def find_and_replace_images (html : Str) : Str × ℕ :=
  (phReplaceLoop 0 (findall matchFinalAt html) html,
    (findall matchFinalAt html).length)

/-- The chart-insertion loop of `create_final_charts.py` lines 309-315:
`for i, chart in enumerate(containers): if placeholder(i) in html: html = html.replace(placeholder(i), chart)`. -/
def swapLoop (i : ℕ) : List Str → Str → Str
  | [], acc => acc
  | c :: cs, acc =>
    swapLoop (i + 1) cs
      (if strContains acc (placeholder i) then replaceAll (placeholder i) c acc
       else acc)

/-- `<div class="chart-container executive-summary">…</div>`
(`create_final_charts.py` line 304). -/
def divWrapExec (s : Str) : Str :=
  "<div class=\"chart-container executive-summary\">".data ++ s ++ "</div>".data

/-- `<div class="chart-container top-performers">…</div>` (line 305). -/
def divWrapPerf (s : Str) : Str :=
  "<div class=\"chart-container top-performers\">".data ++ s ++ "</div>".data

/-- `<div class="chart-container performance-distribution">…</div>`
(line 306). -/
def divWrapDist (s : Str) : Str :=
  "<div class=\"chart-container performance-distribution\">".data
    ++ s ++ "</div>".data

/-- The image-replacement phase of `create_final_charts.py`'s
`update_html_with_charts` (lines 296-317): run
`find_and_replace_images`, then — only when at least 3 images were
found — swap the first three placeholders for the three chart
containers. Returns the patched document and the image count. -/
def patchImagesFinal (e p d : Str) (html : Str) : Str × ℕ :=
  if 3 ≤ (find_and_replace_images html).2 then
    (swapLoop 0 [divWrapExec e, divWrapPerf p, divWrapDist d]
        (find_and_replace_images html).1,
      (find_and_replace_images html).2)
  else find_and_replace_images html

/-- The warning printed by `create_final_charts.py` line 317 when fewer
than 3 images are found (empty otherwise). -/
def finalImageWarnings (n : ℕ) : List String :=
  if 3 ≤ n then [] else [s!"Warning: Expected 3 images, found {n}"]

/-- `'<body>'`. -/
def bodyOpen : Str := "<body>".data

/-- `'</body>'`. -/
def bodyClose : Str := "</body>".data

/-- `'</html>'`. -/
def htmlClose : Str := "</html>".data

/-- `'</head>'`. -/
def headClose : Str := "</head>".data

/-- `'</table>'`. -/
def tableEndStr : Str := "</table>".data

/-- `extract_chart_div` (`create_final_charts.py` lines 283-287):
`html.split('<body>')[1].split('</body>')[0].strip()` when both markers
are present, the whole string otherwise. The `[1]` / `[0]` selections are
total here via a default (`[1]` always exists in Python under the
guard). -/
def extract_chart_div (s : Str) : Str :=
  if strContains s bodyOpen && strContains s bodyClose then
    pyStrip ((pySplit bodyClose ((pySplit bodyOpen s).getD 1 [])).getD 0 [])
  else s

/-- The unguarded inline extraction of `create_charts.py` line 217:
`overall_html.split("<body>")[1].split("</body>")[0]` (no strip, raises
in Python when `<body>` is absent; embedded totally with a default). -/
def extractBodyInline (s : Str) : Str :=
  (pySplit bodyClose ((pySplit bodyOpen s).getD 1 [])).getD 0 []

/-- `<div class="chart-container">…</div>` (`create_charts.py`
lines 222/230). -/
def divWrapPlain (s : Str) : Str :=
  "<div class=\"chart-container\">".data ++ s ++ "</div>".data

/-- The chart section inserted after the results table
(`create_charts.py` lines 239-246). -/
def chartSection (summaryHtml : Str) : Str :=
  "\n        \n<h3>Performance Distribution</h3>\n<p>The following chart shows the overall distribution of page performance after the RFI improvements were implemented:</p>\n<div class=\"chart-container\">\n".data
    ++ summaryHtml ++ "\n</div>\n".data

/-- Lines 236-247 of `create_charts.py`: when `'</table>'` occurs in the
document, insert the section right after its first occurrence; otherwise
do nothing (there is no else branch in the source). -/
def insertAfterTable (sect : Str) (html : Str) : Str :=
  if strContains html tableEndStr then
    html.take ((strFindAux tableEndStr html).getD 0 + tableEndStr.length)
      ++ sect
      ++ html.drop ((strFindAux tableEndStr html).getD 0 + tableEndStr.length)
  else html

/-- The style block of `create_charts.py` lines 250-264, abridged to its
structurally relevant shape (literal braces written as escapes; the CSS
declarations themselves are never inspected): a `<style>` element
followed by the `</head>` marker that the `replace('</head>', css)` call
re-inserts. -/
def cssInsertCharts : Str :=
  "\n<style>\n.chart-container \x7b margin: 2rem 0; \x7d\n</style>\n</head>".data

/-- The enhanced style block of `create_final_charts.py` lines 320-372,
abridged exactly as `cssInsertCharts`. -/
def cssInsertFinal : Str :=
  "\n<style>\n.chart-container \x7b margin: 2rem 0; padding: 1.5rem; \x7d\n</style>\n</head>".data

/-- `html.replace('</body>', summary_stats + '</body>')`
(`create_final_charts.py` line 407): a no-op when `'</body>'` is
absent. -/
def insertBeforeBodyClose (stats : Str) (html : Str) : Str :=
  replaceAll bodyClose (stats ++ bodyClose) html

/-- The document pipeline of `update_html_with_charts` in
`create_charts.py` (lines 204-266): replace the first two simple-pattern
images by the extracted overall chart and the verbatim top-wins chart
document, insert the summary section after the table, then replace
`'</head>'` by the style block. The three chart HTML strings produced by
plotly are parameters. -/
def update_html_with_charts (overallHtml topWinsHtml summaryHtml doc : Str) : Str :=
  replaceAll headClose cssInsertCharts
    (insertAfterTable (chartSection summaryHtml)
      (subFirst matchSimpleAt (divWrapPlain topWinsHtml)
        (subFirst matchSimpleAt (divWrapPlain (extractBodyInline overallHtml))
          doc)))

/-- The document pipeline of `update_html_with_charts` in
`create_final_charts.py` (lines 291-412): placeholder-based image
replacement, then the style-block insertion at `'</head>'`, then the
summary-statistics insertion before `'</body>'`. The chart HTML strings
and the summary block are parameters. -/
def update_html_with_charts_final (e p d stats doc : Str) : Str :=
  insertBeforeBodyClose stats
    (replaceAll headClose cssInsertFinal (patchImagesFinal e p d doc).1)

/-! ### Filesystem model -/

/-- A filesystem: path to contents. -/
abbrev FS := String → Option Str

/-- The fixed source HTML path read by all three scripts. -/
def inputHtmlPath : String := "UAGC RFI Conversion Analysis Report.html"

/-- The fixed CSV path read by all three scripts. -/
def inputCsvPath : String := "data/Pre_vs_Post_Request_Information_Submits.csv"

/-- Output path of `create_charts.py` (line 269). -/
def outputChartsPath : String := "UAGC RFI Conversion Analysis Report_updated.html"

/-- Output path of `create_final_charts.py` (line 411). -/
def outputFinalPath : String := "UAGC RFI Conversion Analysis Report_enhanced.html"

/-- A run of `create_charts.py`: read the CSV and the report, write the
patched document to the `_updated` path. When either read fails the
exception propagates (no except clause writes anything) and the
filesystem is unchanged. Chart rendering is abstracted into the three
chart-HTML parameters. -/
def runChartsScript (o t s : Str) (fs : FS) : FS :=
  match fs inputCsvPath, fs inputHtmlPath with
  | some _, some doc => fun q =>
      if q = outputChartsPath then some (update_html_with_charts o t s doc)
      else fs q
  | _, _ => fs

/-- A run of `create_final_charts.py`: as `runChartsScript` but writing
the `_enhanced` path; its top-level `try/except` only prints, so a failed
read also leaves the filesystem unchanged. -/
def runFinalScript (e p d stats : Str) (fs : FS) : FS :=
  match fs inputCsvPath, fs inputHtmlPath with
  | some _, some doc => fun q =>
      if q = outputFinalPath then some (update_html_with_charts_final e p d stats doc)
      else fs q
  | _, _ => fs

/-- A two-file filesystem holding only the CSV and the source report. -/
def fsOf (c doc : Str) : FS := fun q =>
  if q = inputCsvPath then some c
  else if q = inputHtmlPath then some doc else none

/-- Modelled from the spec: plotly's `figure.to_html` with the default
`full_html=True` — the "document-level wrapper the chart renderer may
emit" — produces a complete HTML document wrapping the chart markup in
`<html>…<body>…</body></html>`. -/
def plotlyFullHtml (inner : Str) : Str :=
  "<html>\n<head><meta charset=\"utf-8\" /></head>\n<body>\n".data
    ++ inner ++ "\n</body>\n</html>".data

/-! Concrete input rows used by counterexamples and witnesses. -/

/-- The spec's worked example row:
`{page:"/a", sessions_pre:100, sessions_post:120, conversions_pre:5, conversions_post:9}`. -/
def rowA : RawRow :=
  { page := "/a", sessions_pre := 100, sessions_post := 120,
    conversions_pre := 5, conversions_post := 9 }

/-- A row whose pre-period rate `1/3·100` is not exactly representable at
either rounding precision, separating precision 2 from precision 4. -/
def row13 : RawRow :=
  { page := "/b", sessions_pre := 3, sessions_post := 4,
    conversions_pre := 1, conversions_post := 1 }

/-- A zero-sessions row with positive conversions: its pre-period rate is
`5/0`. -/
def rowZ5 : RawRow :=
  { page := "/z5", sessions_pre := 0, sessions_post := 50,
    conversions_pre := 5, conversions_post := 2 }

/-- The spec's zero-sessions row
`{sessions_pre:0, sessions_post:50, conversions_pre:0, conversions_post:2}`. -/
def rowZ0 : RawRow :=
  { page := "/z0", sessions_pre := 0, sessions_post := 50,
    conversions_pre := 0, conversions_post := 2 }

/-- A synthetic 2-row dataset on which the sum-based aggregate rate
(`15/110·100 = 150/11`) differs from the mean of the per-row rates
(`(10+50)/2 = 30`). -/
def twoRowSet : List RawRow :=
  [{ page := "/r1", sessions_pre := 100, sessions_post := 100,
     conversions_pre := 10, conversions_post := 10 },
   { page := "/r2", sessions_pre := 10, sessions_post := 10,
     conversions_pre := 5, conversions_post := 5 }]

/-- A derived row with `conversion_rate_change = 5`. -/
def dup0 : DerivedRow :=
  { page := "p0", sessions_pre := 1, sessions_post := 1,
    conversions_pre := 0, conversions_post := 0,
    conversion_rate_pre := .fin 0, conversion_rate_post := .fin 5,
    conversion_rate_change := .fin 5,
    conversions_change := 0, sessions_change := 0 }

/-- A second derived row with the same `conversion_rate_change = 5`
(a tie with `dup0`). -/
def dup1 : DerivedRow := { dup0 with page := "p1" }

/-- Four derived rows with pairwise distinct, finite
`conversion_rate_change` values. -/
def fourRows : List DerivedRow :=
  [{ dup0 with page := "q0", conversion_rate_change := .fin 4 },
   { dup0 with page := "q1", conversion_rate_change := .fin (-1) },
   { dup0 with page := "q2", conversion_rate_change := .fin 7 },
   { dup0 with page := "q3", conversion_rate_change := .fin 0 }]

/-! Concrete documents used by counterexamples and witnesses. -/

/-- A canonical embedded-image tag with the given base64 payload. -/
def imgTagC (payload : Str) : Str :=
  "<img src=\"data:image/png;base64,".data ++ payload ++ "\"/>".data

/-- Text fragments `<a>` … `<e>` separating the images in the concrete
documents. -/
def tA : Str := "<a>".data

/-- See `tA`. -/
def tB : Str := "<b>".data

/-- See `tA`. -/
def tC : Str := "<c>".data

/-- See `tA`. -/
def tD : Str := "<d>".data

/-- See `tA`. -/
def tE : Str := "<e>".data

/-- The concrete image tag with payload `AA`. -/
def imgAA : Str := imgTagC ("AA".data)

/-- The concrete image tag with payload `BB`. -/
def imgBB : Str := imgTagC ("BB".data)

/-- The concrete image tag with payload `CC`. -/
def imgCC : Str := imgTagC ("CC".data)

/-- The concrete image tag with payload `DD`. -/
def imgDD : Str := imgTagC ("DD".data)

/-- Concrete chart fragment stand-ins. -/
def fragE : Str := "E".data

/-- See `fragE`. -/
def fragP : Str := "P".data

/-- See `fragE`. -/
def fragD : Str := "D".data

/-- A one-character summary-chart stand-in. -/
def fragS : Str := "S".data

/-- A one-character summary-statistics stand-in. -/
def fragX : Str := "X".data

/-- A report body with exactly 2 embedded images. -/
def doc2C : Str :=
  tA ++ imgAA ++ tB ++ imgBB
    ++ tC

/-- A report body with exactly 3 embedded images. -/
def doc3C : Str :=
  tA ++ imgAA ++ tB ++ imgBB
    ++ tC ++ imgCC ++ tD

/-- A report body with exactly 4 embedded images. -/
def doc4C : Str :=
  tA ++ imgAA ++ tB ++ imgBB
    ++ tC ++ imgCC ++ tD ++ imgDD
    ++ tE

/-- A small report document with head, body, two embedded images and a
results table. -/
def docCharts : Str :=
  "<html><head></head><body>".data ++ imgAA
    ++ imgBB ++ "<table></table></body></html>".data

/-- A document with no `</table>` anchor. -/
def docNoTable : Str := "<html><body><p>r</p></body></html>".data

/-- A document with no `</body>` anchor. -/
def docNoBody : Str := "<p>q</p>".data

/-- Inner chart markup used in extraction examples. -/
def chartInnerA : Str := "<div id=\"a\"></div>".data

/-- Inner chart markup used in extraction examples. -/
def chartInnerB : Str := "<div id=\"b\"></div>".data

/-- Inner chart markup used in extraction examples. -/
def chartInnerC : Str := "<div id=\"c\"></div>".data

/-! ## Theorems -/

/-- Exactly one of the three zero-comparisons holds on a non-NaN cell. -/
theorem pcmp_partition (v : PFloat) (h : pIsNan v = false) :
    (if pgt0 v then 1 else 0) + (if plt0 v then 1 else 0)
      + (if peq0 v then 1 else 0) = 1 := by
  cases v with
  | fin q =>
    rcases lt_trichotomy q 0 with hq | hq | hq
    · simp [pgt0, plt0, peq0, hq, not_lt.mpr hq.le, hq.ne]
    · simp [pgt0, plt0, peq0, hq]
    · simp [pgt0, plt0, peq0, hq, not_lt.mpr hq.le, hq.ne.symm]
  | pinf => simp [pgt0, plt0, peq0]
  | ninf => simp [pgt0, plt0, peq0]
  | nan => simp [pIsNan] at h

/-- C2 counterexample: on the row `row13` (1 conversion, 3 sessions) the
stored `conversion_rate_pre` is neither the exact value
`conversions_pre / sessions_pre * 100 = 100/3` nor equal across the
program's two load functions — `create_charts.py` rounds to 2 decimals,
`create_final_charts.py` to 4, so no single precision `P` is applied
uniformly across the program. -/
theorem C2_counterexample :
    (load_data [row13]).map (fun d => d.conversion_rate_pre) ≠
        [PFloat.fin ((1 : ℚ) / 3 * 100)] ∧
    (load_data [row13]).map (fun d => d.conversion_rate_pre) ≠
        (load_and_process_data [row13]).map (fun d => d.conversion_rate_pre) := by
  constructor <;>
    norm_num [load_data, load_and_process_data, deriveRow, pdiv, pmul100,
      pround, psub, row13, roundQ, rhalfEven]

/-- C2 (amended): each script applies its own fixed precision uniformly to
the three rate fields — `P = 2` in `create_charts.py` and `P = 4` in
`create_final_charts.py` / `create_enhanced_charts.py`; the stored rates
are the rounded rates `round(conversions/sessions*100, P)`,
`conversion_rate_change = round(rate_post - rate_pre, P)` is the rounded
difference of the already-rounded rates, and
`conversions_change` / `sessions_change` are exact differences. -/
theorem C2_derived_fields (p : ℕ) (r : RawRow)
    (h1 : r.sessions_pre ≠ 0) (h2 : r.sessions_post ≠ 0) :
    (deriveRow p r).conversion_rate_pre =
        .fin (roundQ p ((r.conversions_pre : ℚ) / (r.sessions_pre : ℚ) * 100)) ∧
    (deriveRow p r).conversion_rate_post =
        .fin (roundQ p ((r.conversions_post : ℚ) / (r.sessions_post : ℚ) * 100)) ∧
    (deriveRow p r).conversion_rate_change =
        .fin (roundQ p
          (roundQ p ((r.conversions_post : ℚ) / (r.sessions_post : ℚ) * 100)
            - roundQ p ((r.conversions_pre : ℚ) / (r.sessions_pre : ℚ) * 100))) ∧
    (deriveRow p r).conversions_change = r.conversions_post - r.conversions_pre ∧
    (deriveRow p r).sessions_change = r.sessions_post - r.sessions_pre ∧
    load_data [r] = [deriveRow 2 r] ∧
    load_and_process_data [r] = [deriveRow 4 r] := by
  refine ⟨?_, ?_, ?_, rfl, rfl, rfl, rfl⟩ <;>
    simp [deriveRow, pdiv, pmul100, pround, psub, h1, h2]

/-- Witness for `C2_derived_fields` at the spec's example row. -/
theorem C2_derived_fields_witness :
    rowA.sessions_pre ≠ 0 ∧ rowA.sessions_post ≠ 0 ∧
    ((deriveRow 2 rowA).conversion_rate_pre =
        .fin (roundQ 2 ((rowA.conversions_pre : ℚ) / (rowA.sessions_pre : ℚ) * 100)) ∧
      (deriveRow 2 rowA).conversion_rate_post =
        .fin (roundQ 2 ((rowA.conversions_post : ℚ) / (rowA.sessions_post : ℚ) * 100)) ∧
      (deriveRow 2 rowA).conversion_rate_change =
        .fin (roundQ 2
          (roundQ 2 ((rowA.conversions_post : ℚ) / (rowA.sessions_post : ℚ) * 100)
            - roundQ 2 ((rowA.conversions_pre : ℚ) / (rowA.sessions_pre : ℚ) * 100))) ∧
      (deriveRow 2 rowA).conversions_change
          = rowA.conversions_post - rowA.conversions_pre ∧
      (deriveRow 2 rowA).sessions_change
          = rowA.sessions_post - rowA.sessions_pre ∧
      load_data [rowA] = [deriveRow 2 rowA] ∧
      load_and_process_data [rowA] = [deriveRow 4 rowA]) :=
  ⟨by decide, by decide, C2_derived_fields 2 rowA (by decide) (by decide)⟩

/-- C3 counterexample: on a zero-sessions row with positive conversions
(`rowZ5`), the rate computed by `load_and_process_data` is `+inf`, which
is neither `0` nor pandas' NaN missing-value sentinel — so the code does
not resolve zero-denominator rates to a single documented sentinel/zero
policy. -/
theorem C3_counterexample :
    (load_and_process_data [rowZ5]).map (fun d => d.conversion_rate_pre)
        = [PFloat.pinf] ∧
    PFloat.pinf ≠ PFloat.fin 0 ∧ PFloat.pinf ≠ PFloat.nan := by
  refine ⟨by decide, by decide, by decide⟩

/-- C3 (amended): computing the derived rates on a zero-sessions row never
raises — the embedded division is a total function — but there is no
single sentinel: the rate is NaN (pandas' not-applicable marker) exactly
when the numerator is also `0`, `+inf` when it is positive, and `-inf`
when it is negative. -/
theorem C3_zero_sessions (p : ℕ) (r : RawRow) (h : r.sessions_pre = 0) :
    (deriveRow p r).conversion_rate_pre =
      (if r.conversions_pre = 0 then PFloat.nan
       else if 0 < r.conversions_pre then PFloat.pinf else PFloat.ninf) := by
  rcases lt_trichotomy r.conversions_pre 0 with hc | hc | hc
  · simp [deriveRow, pdiv, pmul100, pround, h, hc, not_lt.mpr hc.le, hc.ne]
  · simp [deriveRow, pdiv, pmul100, pround, h, hc]
  · simp [deriveRow, pdiv, pmul100, pround, h, hc, hc.ne.symm]

/-- Witness for `C3_zero_sessions` at the spec's zero-sessions row: the
rate resolves to NaN there. -/
theorem C3_zero_sessions_witness :
    rowZ0.sessions_pre = 0 ∧
    (deriveRow 4 rowZ0).conversion_rate_pre =
      (if rowZ0.conversions_pre = 0 then PFloat.nan
       else if 0 < rowZ0.conversions_pre then PFloat.pinf else PFloat.ninf) :=
  ⟨by decide, C3_zero_sessions 4 rowZ0 (by decide)⟩

/-- C4: the headline conversion rates are derived from the column sums —
`overall_conv_rate_pre/post = sum(conversions)/sum(sessions)*100` — and
the percentage-point change is the difference of these sum-based rates;
moreover on the synthetic 2-row dataset `twoRowSet` the sum-based
aggregate differs from the mean of the per-row rates, so the source's
aggregate is not the per-row mean. -/
theorem C4_aggregate_rate (rows : List RawRow)
    (h1 : total_sessions_pre rows ≠ 0) (h2 : total_sessions_post rows ≠ 0) :
    overall_conv_rate_pre rows =
        .fin ((total_conversions_pre rows : ℚ)
          / (total_sessions_pre rows : ℚ) * 100) ∧
    overall_conv_rate_post rows =
        .fin ((total_conversions_post rows : ℚ)
          / (total_sessions_post rows : ℚ) * 100) ∧
    conv_rate_change_pp rows =
        .fin ((total_conversions_post rows : ℚ)
            / (total_sessions_post rows : ℚ) * 100
          - (total_conversions_pre rows : ℚ)
            / (total_sessions_pre rows : ℚ) * 100) ∧
    overall_conv_rate_pre twoRowSet ≠ .fin (meanOfPerRowRatesPre twoRowSet) := by
  refine ⟨?_, ?_, ?_, ?_⟩
  · simp [overall_conv_rate_pre, pdiv, pmul100, h1]
  · simp [overall_conv_rate_post, pdiv, pmul100, h2]
  · simp [overall_conv_rate_pre, overall_conv_rate_post, conv_rate_change_pp,
      pdiv, pmul100, psub, h1, h2]
  · norm_num [overall_conv_rate_pre, meanOfPerRowRatesPre, twoRowSet,
      total_conversions_pre, total_sessions_pre, pdiv, pmul100]

/-- Witness for `C4_aggregate_rate` on the synthetic 2-row dataset. -/
theorem C4_aggregate_rate_witness :
    total_sessions_pre twoRowSet ≠ 0 ∧ total_sessions_post twoRowSet ≠ 0 ∧
    (overall_conv_rate_pre twoRowSet =
        .fin ((total_conversions_pre twoRowSet : ℚ)
          / (total_sessions_pre twoRowSet : ℚ) * 100) ∧
      overall_conv_rate_post twoRowSet =
        .fin ((total_conversions_post twoRowSet : ℚ)
          / (total_sessions_post twoRowSet : ℚ) * 100) ∧
      conv_rate_change_pp twoRowSet =
        .fin ((total_conversions_post twoRowSet : ℚ)
            / (total_sessions_post twoRowSet : ℚ) * 100
          - (total_conversions_pre twoRowSet : ℚ)
            / (total_sessions_pre twoRowSet : ℚ) * 100) ∧
      overall_conv_rate_pre twoRowSet ≠ .fin (meanOfPerRowRatesPre twoRowSet)) :=
  ⟨by decide, by decide, C4_aggregate_rate twoRowSet (by decide) (by decide)⟩

/-- C6 counterexample: on the dataset consisting of the spec's
zero-sessions row, `conversion_rate_change` is NaN, so the row is counted
by none of the three classification filters and the counts sum to `0`,
not to the row count `1`. -/
theorem C6_counterexample :
    winsCount (load_and_process_data [rowZ0])
        + lossesCount (load_and_process_data [rowZ0])
        + tiesCount (load_and_process_data [rowZ0])
      ≠ (load_and_process_data [rowZ0]).length ∧
    winsCount (load_and_process_data [rowZ0])
        + lossesCount (load_and_process_data [rowZ0])
        + tiesCount (load_and_process_data [rowZ0]) = 0 ∧
    (load_and_process_data [rowZ0]).length = 1 := by
  refine ⟨by decide, by decide, by decide⟩

/-- C6 (amended): whenever no row's `conversion_rate_change` is NaN (in
particular whenever all session counts are nonzero), the classification
counts partition the dataset:
`improved + declined + unchanged = total_row_count`. -/
theorem C6_partition (ds : List DerivedRow)
    (h : ∀ d ∈ ds, pIsNan d.conversion_rate_change = false) :
    winsCount ds + lossesCount ds + tiesCount ds = ds.length := by
  induction ds with
  | nil => simp [winsCount, lossesCount, tiesCount]
  | cons d tl ih =>
    have hd := h d (List.mem_cons_self d tl)
    have htl := ih (fun x hx => h x (List.mem_cons_of_mem d hx))
    have hkey := pcmp_partition d.conversion_rate_change hd
    simp only [winsCount, lossesCount, tiesCount, List.filter_cons,
      List.length_cons] at *
    by_cases h1 : pgt0 d.conversion_rate_change <;>
      by_cases h2 : plt0 d.conversion_rate_change <;>
      by_cases h3 : peq0 d.conversion_rate_change <;>
      simp [h1, h2, h3] at hkey ⊢ <;> omega

/-- Witness for `C6_partition` on a concrete 2-row derived dataset. -/
theorem C6_partition_witness :
    (∀ d ∈ load_data [rowA, row13],
        pIsNan d.conversion_rate_change = false) ∧
    winsCount (load_data [rowA, row13])
        + lossesCount (load_data [rowA, row13])
        + tiesCount (load_data [rowA, row13])
      = (load_data [rowA, row13]).length :=
  ⟨by decide, C6_partition (load_data [rowA, row13]) (by decide)⟩

/-- The sort comparator is total. -/
theorem pfleB_total (a b : PFloat) : pfleB a b = true ∨ pfleB b a = true := by
  cases a <;> cases b <;> simp [pfleB]
  exact le_total _ _

/-- The sort comparator is transitive. -/
theorem pfleB_trans (a b c : PFloat) (hab : pfleB a b = true)
    (hbc : pfleB b c = true) : pfleB a c = true := by
  cases a <;> cases b <;> cases c <;> simp_all [pfleB]
  exact le_trans hab hbc

/-- Two distinct cells cannot compare below-or-equal in both directions. -/
theorem pfleB_asymm_of_ne (a b : PFloat) (hne : a ≠ b)
    (hab : pfleB a b = true) (hba : pfleB b a = true) : False := by
  cases a <;> cases b <;> simp_all [pfleB]
  exact hne (le_antisymm hab hba)

/-- C10 counterexample: on the 2-row dataset `[dup0, dup1]` whose two
`conversion_rate_change` values tie at `5`, taking top-1 followed by
bottom-1 (so `K = 1 ≥ n/2` and `K·2 = n`) yields `[dup0, dup0]`:
`dup0` is covered twice and `dup1` is not covered at all, refuting
"covers every row exactly once when `K·2 ≥` row count". -/
theorem C10_counterexample :
    topBottomConcat 1 1 [dup0, dup1] = [dup0, dup0] ∧
    dup1 ∉ topBottomConcat 1 1 [dup0, dup1] ∧
    dup1 ∈ [dup0, dup1] := by
  have h55 : pfleB (PFloat.fin 5) (PFloat.fin 5) = true := by simp [pfleB]
  have h : topBottomConcat 1 1 [dup0, dup1] = [dup0, dup0] := by
    simp [topBottomConcat, nlargest, nsmallest, List.mergeSort, pIsNan,
      dup0, dup1, h55]
  refine ⟨h, ?_, by decide⟩
  rw [h]
  decide

/-- C10 (amended): provided no `conversion_rate_change` is NaN and the
change values are pairwise distinct, top-K-by-change-descending and
bottom-K-by-change-ascending have no overlap whenever `K·2 ≤` row count,
and their concatenation covers every row exactly once (it is a
permutation of the dataset) exactly in the boundary case `K·2 =` row
count; with tied values or `K·2 >` row count, rows can be covered twice
or missed. -/
theorem C10_top_bottom (ds : List DerivedRow) (K : ℕ)
    (hnan : ∀ d ∈ ds, pIsNan d.conversion_rate_change = false)
    (hdist : (ds.map (fun d => d.conversion_rate_change)).Nodup) :
    (2 * K ≤ ds.length →
        ∀ d ∈ nlargest K (fun d => d.conversion_rate_change) ds,
          d ∉ nsmallest K (fun d => d.conversion_rate_change) ds) ∧
    (2 * K = ds.length → (topBottomConcat K K ds).Perm ds) := by
  have hfilter : ds.filter (fun a => !pIsNan a.conversion_rate_change) = ds :=
    List.filter_eq_self.mpr (fun a ha => by simp [hnan a ha])
  have htransG : ∀ a b c : DerivedRow,
      geB a b = true → geB b c = true → geB a c = true :=
    fun a b c hab hbc => pfleB_trans _ _ _ hbc hab
  have htotalG : ∀ a b : DerivedRow, (geB a b || geB b a) = true := by
    intro a b
    rcases pfleB_total b.conversion_rate_change a.conversion_rate_change
      with h | h <;> simp [geB, h]
  have htransL : ∀ a b c : DerivedRow,
      leB a b = true → leB b c = true → leB a c = true :=
    fun a b c hab hbc => pfleB_trans _ _ _ hab hbc
  have htotalL : ∀ a b : DerivedRow, (leB a b || leB b a) = true := by
    intro a b
    rcases pfleB_total a.conversion_rate_change b.conversion_rate_change
      with h | h <;> simp [leB, h]
  have hLp : (ds.mergeSort geB).Perm ds := List.mergeSort_perm ds geB
  have hMp : (ds.mergeSort leB).Perm ds := List.mergeSort_perm ds leB
  have hpairG : List.Pairwise (fun a b => geB a b = true) (ds.mergeSort geB) :=
    List.sorted_mergeSort htransG htotalG ds
  have hpairL : List.Pairwise (fun a b => leB a b = true) (ds.mergeSort leB) :=
    List.sorted_mergeSort htransL htotalL ds
  have hndsL : List.Pairwise (fun a b : DerivedRow =>
      a.conversion_rate_change ≠ b.conversion_rate_change) (ds.mergeSort geB) := by
    have h1 : (List.map (fun d : DerivedRow => d.conversion_rate_change)
        (ds.mergeSort geB)).Nodup :=
      ((hLp.map (fun d : DerivedRow => d.conversion_rate_change)).nodup_iff).mpr
        hdist
    exact List.pairwise_map.mp h1
  have hndsM : List.Pairwise (fun a b : DerivedRow =>
      a.conversion_rate_change ≠ b.conversion_rate_change) (ds.mergeSort leB) := by
    have h1 : (List.map (fun d : DerivedRow => d.conversion_rate_change)
        (ds.mergeSort leB)).Nodup :=
      ((hMp.map (fun d : DerivedRow => d.conversion_rate_change)).nodup_iff).mpr
        hdist
    exact List.pairwise_map.mp h1
  have hRM : List.Pairwise (fun a b : DerivedRow => leB a b = true ∧
      a.conversion_rate_change ≠ b.conversion_rate_change) (ds.mergeSort leB) :=
    hpairL.and hndsM
  have hRLrev : List.Pairwise (fun a b : DerivedRow => leB a b = true ∧
      a.conversion_rate_change ≠ b.conversion_rate_change)
      (ds.mergeSort geB).reverse :=
    List.pairwise_reverse.mpr ((hpairG.and hndsL).imp
      (fun hab => ⟨hab.1, fun h => hab.2 h.symm⟩))
  haveI : IsAntisymm DerivedRow (fun a b => leB a b = true ∧
      a.conversion_rate_change ≠ b.conversion_rate_change) :=
    ⟨fun a b h1 h2 => (pfleB_asymm_of_ne _ _ h1.2 h1.1 h2.1).elim⟩
  have hperm : (ds.mergeSort leB).Perm (ds.mergeSort geB).reverse :=
    hMp.trans (hLp.symm.trans (List.reverse_perm (ds.mergeSort geB)).symm)
  have hML : ds.mergeSort leB = (ds.mergeSort geB).reverse :=
    List.eq_of_perm_of_sorted hperm hRM hRLrev
  have hndL : (ds.mergeSort geB).Nodup :=
    hLp.nodup_iff.mpr (List.Nodup.of_map _ hdist)
  have hlen : (ds.mergeSort geB).length = ds.length := hLp.length_eq
  have hnl : nlargest K (fun d => d.conversion_rate_change) ds
      = (ds.mergeSort geB).take K := by
    show ((ds.filter (fun a => !pIsNan a.conversion_rate_change)).mergeSort
        geB).take K = (ds.mergeSort geB).take K
    rw [hfilter]
  have hns : nsmallest K (fun d => d.conversion_rate_change) ds
      = ((ds.mergeSort geB).drop ((ds.mergeSort geB).length - K)).reverse := by
    show ((ds.filter (fun a => !pIsNan a.conversion_rate_change)).mergeSort
          leB).take K
        = ((ds.mergeSort geB).drop ((ds.mergeSort geB).length - K)).reverse
    rw [hfilter, hML, List.take_reverse]
  constructor
  · intro h2K d hdTop hdBot
    rw [hnl] at hdTop
    rw [hns, List.mem_reverse] at hdBot
    have hKle : K ≤ (ds.mergeSort geB).length - K := by omega
    have hdTop' : d ∈ (ds.mergeSort geB).take
        ((ds.mergeSort geB).length - K) := by
      have heq : (ds.mergeSort geB).take K
          = ((ds.mergeSort geB).take ((ds.mergeSort geB).length - K)).take K := by
        rw [List.take_take, min_eq_left hKle]
      rw [heq] at hdTop
      exact List.take_subset _ _ hdTop
    have hsplit : ((ds.mergeSort geB).take ((ds.mergeSort geB).length - K)
        ++ (ds.mergeSort geB).drop ((ds.mergeSort geB).length - K)).Nodup := by
      rw [List.take_append_drop]
      exact hndL
    exact (List.nodup_append.mp hsplit).2.2 hdTop' hdBot
  · intro h2K
    have hKeq : (ds.mergeSort geB).length - K = K := by omega
    have htb : topBottomConcat K K ds
        = (ds.mergeSort geB).take K ++ ((ds.mergeSort geB).drop K).reverse := by
      show nlargest K (fun d => d.conversion_rate_change) ds ++
          nsmallest K (fun d => d.conversion_rate_change) ds = _
      rw [hnl, hns, hKeq]
    rw [htb]
    have hp1 : ((ds.mergeSort geB).take K
        ++ ((ds.mergeSort geB).drop K).reverse).Perm
          ((ds.mergeSort geB).take K ++ (ds.mergeSort geB).drop K) :=
      List.Perm.append_left _ (List.reverse_perm _)
    refine hp1.trans ?_
    rw [List.take_append_drop]
    exact hLp

/-- Witness for `C10_top_bottom` on four rows with distinct finite change
values and `K = 2`. -/
theorem C10_top_bottom_witness :
    (∀ d ∈ fourRows, pIsNan d.conversion_rate_change = false) ∧
    (fourRows.map (fun d => d.conversion_rate_change)).Nodup ∧
    ((2 * 2 ≤ fourRows.length →
        ∀ d ∈ nlargest 2 (fun d => d.conversion_rate_change) fourRows,
          d ∉ nsmallest 2 (fun d => d.conversion_rate_change) fourRows) ∧
      (2 * 2 = fourRows.length → (topBottomConcat 2 2 fourRows).Perm fourRows)) :=
  ⟨by decide, by norm_num [fourRows, dup0],
    C10_top_bottom fourRows 2 (by decide) (by norm_num [fourRows, dup0])⟩

/-! ### String lemma kit -/

/-- A string is a prefix of itself extended on the right. -/
theorem hasPre_self_append (m b : Str) : hasPre m (m ++ b) = true := by
  induction m with
  | nil => simp [hasPre]
  | cons c cs ih => simp [hasPre, ih]

/-- A prefix of `s` is a prefix of `s ++ v`. -/
theorem hasPre_mono_append (p s v : Str) (h : hasPre p s = true) :
    hasPre p (s ++ v) = true := by
  induction p generalizing s with
  | nil => simp [hasPre]
  | cons c cs ih =>
    cases s with
    | nil => simp [hasPre] at h
    | cons b bs =>
      simp only [List.cons_append, hasPre, Bool.and_eq_true, beq_iff_eq] at h ⊢
      exact ⟨h.1, ih bs h.2⟩

/-- A prefix is no longer than the string. -/
theorem hasPre_length (p s : Str) (h : hasPre p s = true) :
    p.length ≤ s.length := by
  induction p generalizing s with
  | nil => simp
  | cons c cs ih =>
    cases s with
    | nil => simp [hasPre] at h
    | cons b bs =>
      simp only [hasPre, Bool.and_eq_true, beq_iff_eq] at h
      simpa using ih bs h.2

/-- Occurrences of the empty pattern: one per position. -/
theorem occ_nil_pat (s : Str) : occCount [] s = s.length + 1 := by
  induction s with
  | nil => simp [occCount, hasPre]
  | cons c rest ih =>
    simp [occCount, hasPre, ih]
    omega

/-- Appending on the left cannot lose occurrences. -/
theorem occ_append_ge (pat u v : Str) :
    occCount pat v ≤ occCount pat (u ++ v) := by
  induction u with
  | nil => simp
  | cons c u' ih =>
    calc occCount pat v ≤ occCount pat (u' ++ v) := ih
      _ ≤ occCount pat (c :: (u' ++ v)) := by
          simp only [occCount, List.append_eq]; omega
      _ = occCount pat ((c :: u') ++ v) := by simp

/-- Appending on the right cannot lose occurrences. -/
theorem occ_append_left_ge (pat t v : Str) :
    occCount pat t ≤ occCount pat (t ++ v) := by
  induction t with
  | nil =>
    cases pat with
    | nil => simp [occCount, hasPre, occ_nil_pat]
    | cons c cs => simp [occCount, hasPre]
  | cons c t' ih =>
    simp only [List.cons_append, occCount, List.append_eq]
    have hmono : (if hasPre pat (c :: t') then 1 else 0)
        ≤ (if hasPre pat (c :: (t' ++ v)) then 1 else 0) := by
      by_cases h : hasPre pat (c :: t') = true
      · have : hasPre pat ((c :: t') ++ v) = true := hasPre_mono_append _ _ _ h
        simp only [List.cons_append] at this
        simp [h, this]
      · simp [h]
    omega

/-- A designated occurrence forces a positive count. -/
theorem occ_ge_one (pat u v : Str) : 1 ≤ occCount pat (u ++ (pat ++ v)) := by
  induction u with
  | nil =>
    cases hpv : pat ++ v with
    | nil => simp_all [occCount, hasPre]
    | cons c rest =>
      have h1 : hasPre pat (pat ++ v) = true := hasPre_self_append pat v
      rw [hpv] at h1
      simp [occCount, h1, hpv]
  | cons c u' ih =>
    simp only [List.cons_append, occCount, List.append_eq]
    omega

/-- Occurrences strictly inside the left part, plus the designated one,
are all counted. -/
theorem occ_prefix_add (pat u v : Str) (hpat : pat ≠ []) :
    occCount pat u + 1 ≤ occCount pat (u ++ (pat ++ v)) := by
  induction u with
  | nil =>
    cases pat with
    | nil => exact absurd rfl hpat
    | cons c cs =>
      have := occ_ge_one (c :: cs) [] v
      simpa [occCount, hasPre] using this
  | cons c u' ih =>
    simp only [List.cons_append, occCount, List.append_eq]
    have hmono : (if hasPre pat (c :: u') then 1 else 0)
        ≤ (if hasPre pat (c :: (u' ++ (pat ++ v))) then 1 else 0) := by
      by_cases h : hasPre pat (c :: u') = true
      · have := hasPre_mono_append pat (c :: u') (pat ++ v) h
        simp only [List.cons_append] at this
        simp [h, this]
      · simp [h]
    omega

/-- No occurrences means the find scan fails. -/
theorem occ_zero_find_none (pat s : Str) (h : occCount pat s = 0) :
    strFindAux pat s = none := by
  induction s with
  | nil =>
    by_cases hp : hasPre pat [] = true
    · simp [occCount, hp] at h
    · simp [strFindAux, hp]
  | cons c rest ih =>
    by_cases hp : hasPre pat (c :: rest) = true
    · simp [occCount, hp] at h
    · have h2 : occCount pat rest = 0 := by simpa [occCount, hp] using h
      simp [strFindAux, hp, ih h2]

/-- A positive count means Python's `in` succeeds. -/
theorem occ_pos_contains (pat s : Str) (h : 0 < occCount pat s) :
    strContains s pat = true := by
  induction s with
  | nil =>
    by_cases hp : hasPre pat [] = true
    · simp [strContains, strFindAux, hp]
    · simp [occCount, hp] at h
  | cons c rest ih =>
    by_cases hp : hasPre pat (c :: rest) = true
    · simp [strContains, strFindAux, hp]
    · have h2 : 0 < occCount pat rest := by simpa [occCount, hp] using h
      have := ih h2
      simp only [strContains, strFindAux, hp, if_false] at this ⊢
      simp only [Bool.false_eq_true, if_false] at this ⊢
      simpa using this

/-- With a unique occurrence, the find scan locates exactly it. -/
theorem strFind_unique (m a b : Str) (hm : m ≠ [])
    (h : occCount m (a ++ (m ++ b)) = 1) :
    strFindAux m (a ++ (m ++ b)) = some a.length := by
  induction a with
  | nil =>
    cases hmb : m ++ b with
    | nil =>
      cases m with
      | nil => exact absurd rfl hm
      | cons c cs => simp at hmb
    | cons c rest =>
      have h1 : hasPre m (m ++ b) = true := hasPre_self_append m b
      rw [hmb] at h1
      simp [strFindAux, h1, hmb]
  | cons c a' ih =>
    have hone : 1 ≤ occCount m (a' ++ (m ++ b)) := occ_ge_one m a' b
    have h3 : occCount m (c :: (a' ++ (m ++ b))) = 1 := by simpa using h
    have hp : hasPre m (c :: (a' ++ (m ++ b))) = false := by
      by_cases hp' : hasPre m (c :: (a' ++ (m ++ b))) = true
      · exfalso
        have := h3
        simp [occCount, hp'] at this
        omega
      · simpa using hp'
    have h2 : occCount m (a' ++ (m ++ b)) = 1 := by
      simpa [occCount, hp] using h3
    simp [strFindAux, hp, ih h2]

/-- `str.replace(old, new, 1)` at a unique occurrence substitutes exactly
there. -/
theorem replaceFirst_unique (a m b r : Str) (hm : m ≠ [])
    (h : occCount m (a ++ (m ++ b)) = 1) :
    replaceFirst (a ++ (m ++ b)) m r = a ++ (r ++ b) := by
  unfold replaceFirst
  rw [strFind_unique m a b hm h]
  show (a ++ (m ++ b)).take a.length ++ r
      ++ (a ++ (m ++ b)).drop (a.length + m.length) = a ++ (r ++ b)
  have htake : (a ++ (m ++ b)).take a.length = a := List.take_left a (m ++ b)
  have hdrop : (a ++ (m ++ b)).drop (a.length + m.length) = b := by
    rw [← List.append_assoc, ← List.length_append a m]
    exact List.drop_left (a ++ m) b
  rw [htake, hdrop]
  simp

/-- `str.replace` is the identity when the pattern does not occur. -/
theorem replaceAllF_no_occ (old new : Str) (fuel : ℕ) (s : Str)
    (h : occCount old s = 0) : replaceAllF old new fuel s = s := by
  induction fuel generalizing s with
  | zero => cases s <;> simp [replaceAllF]
  | succ f ih =>
    cases s with
    | nil => simp [replaceAllF]
    | cons c rest =>
      by_cases hp : hasPre old (c :: rest) = true
      · simp [occCount, hp] at h
      · have h2 : occCount old rest = 0 := by simpa [occCount, hp] using h
        simp [replaceAllF, hp, ih rest h2]

/-- `str.replace(old, new)` at a unique occurrence substitutes exactly
there (fuel version). -/
theorem replaceAllF_unique (m r : Str) (hm : m ≠ []) :
    ∀ (a b : Str) (fuel : ℕ), occCount m (a ++ (m ++ b)) = 1 →
      (a ++ (m ++ b)).length ≤ fuel →
      replaceAllF m r fuel (a ++ (m ++ b)) = a ++ (r ++ b) := by
  intro a
  induction a with
  | nil =>
    intro b fuel h hlen
    cases m with
    | nil => exact absurd rfl hm
    | cons c m' =>
      cases fuel with
      | zero => simp at hlen
      | succ f =>
        have hp : hasPre (c :: m') (c :: (m' ++ b)) = true := by
          have := hasPre_self_append (c :: m') b
          simpa using this
        have hocc_b : occCount (c :: m') b = 0 := by
          have h1 : occCount (c :: m') b ≤ occCount (c :: m') (m' ++ b) :=
            occ_append_ge _ m' b
          have h3 : occCount (c :: m') (c :: (m' ++ b)) = 1 := by
            simpa using h
          have h2 : occCount (c :: m') (c :: (m' ++ b))
              = 1 + occCount (c :: m') (m' ++ b) := by
            simp [occCount, hp]
          omega
        have hstep : replaceAllF (c :: m') r (f + 1) (c :: (m' ++ b))
            = r ++ replaceAllF (c :: m') r f b := by
          simp [replaceAllF, hp, List.drop_left]
        simp only [List.nil_append, List.cons_append]
        rw [hstep, replaceAllF_no_occ _ _ _ _ hocc_b]
  | cons c a' ih =>
    intro b fuel h hlen
    have hone : 1 ≤ occCount m (a' ++ (m ++ b)) := occ_ge_one m a' b
    have h3 : occCount m (c :: (a' ++ (m ++ b))) = 1 := by simpa using h
    have hp : hasPre m (c :: (a' ++ (m ++ b))) = false := by
      by_cases hp' : hasPre m (c :: (a' ++ (m ++ b))) = true
      · exfalso
        have := h3
        simp [occCount, hp'] at this
        omega
      · simpa using hp'
    cases fuel with
    | zero => simp at hlen
    | succ f =>
      have h2 : occCount m (a' ++ (m ++ b)) = 1 := by
        simpa [occCount, hp] using h3
      have hlen2 : (a' ++ (m ++ b)).length ≤ f := by
        simp only [List.cons_append, List.length_cons] at hlen
        omega
      have hstep : replaceAllF m r (f + 1) (c :: (a' ++ (m ++ b)))
          = c :: replaceAllF m r f (a' ++ (m ++ b)) := by
        simp [replaceAllF, hp]
      simp only [List.cons_append]
      rw [hstep, ih b f h2 hlen2]

/-- `str.replace(old, new)` at a unique occurrence substitutes exactly
there. -/
theorem replaceAll_unique (a m b r : Str) (hm : m ≠ [])
    (h : occCount m (a ++ (m ++ b)) = 1) :
    replaceAll m r (a ++ (m ++ b)) = a ++ (r ++ b) :=
  replaceAllF_unique m r hm a b (a ++ (m ++ b)).length h le_rfl

/-- After consuming a leading copy of the pattern, a unique occurrence
leaves nothing in the remainder. -/
theorem occ_tail_zero (m b : Str) (hm : m ≠ [])
    (h : occCount m (m ++ b) ≤ 1) : occCount m b = 0 := by
  cases m with
  | nil => exact absurd rfl hm
  | cons c m' =>
    have hp : hasPre (c :: m') (c :: (m' ++ b)) = true := by
      have := hasPre_self_append (c :: m') b
      simpa using this
    have h1 : occCount (c :: m') b ≤ occCount (c :: m') (m' ++ b) :=
      occ_append_ge _ m' b
    have h2 : occCount (c :: m') (c :: (m' ++ b))
        = 1 + occCount (c :: m') (m' ++ b) := by
      simp [occCount, hp]
    have h3 : occCount (c :: m') (c :: (m' ++ b)) ≤ 1 := by simpa using h
    omega

/-- `str.split` on a pattern that does not occur returns the whole
string. -/
theorem pySplitF_no_occ (sep : Str) (fuel : ℕ) (s : Str)
    (h : occCount sep s = 0) : pySplitF sep fuel s = [s] := by
  cases fuel with
  | zero => simp [pySplitF]
  | succ f => simp [pySplitF, occ_zero_find_none sep s h]

/-- `str.split` at a unique occurrence of a nonempty separator cuts
exactly there. -/
theorem pySplit_unique (sep a b : Str) (hsep : sep ≠ [])
    (h : occCount sep (a ++ (sep ++ b)) = 1) :
    pySplit sep (a ++ (sep ++ b)) = [a, b] := by
  have hne : sep.isEmpty = false := by
    cases sep with
    | nil => exact absurd rfl hsep
    | cons x xs => simp
  have hocc_b : occCount sep b = 0 := by
    have h1 := occ_append_ge sep a (sep ++ b)
    exact occ_tail_zero sep b hsep (by omega)
  have hlen1 : 1 ≤ (a ++ (sep ++ b)).length := by
    cases sep with
    | nil => exact absurd rfl hsep
    | cons x xs => simp [List.length_append]; omega
  unfold pySplit
  rw [hne]
  simp only [Bool.false_eq_true, if_false]
  cases hfl : (a ++ (sep ++ b)).length with
  | zero => omega
  | succ f =>
    rw [pySplitF, strFind_unique sep a b hsep h]
    show (a ++ (sep ++ b)).take a.length
        :: pySplitF sep f ((a ++ (sep ++ b)).drop (a.length + sep.length))
      = [a, b]
    have htake : (a ++ (sep ++ b)).take a.length = a := List.take_left a _
    have hdrop : (a ++ (sep ++ b)).drop (a.length + sep.length) = b := by
      rw [← List.append_assoc, ← List.length_append a sep]
      exact List.drop_left (a ++ sep) b
    rw [htake, hdrop, pySplitF_no_occ sep f b hocc_b]

/-- The stripped string sits inside the original, so it has no more
occurrences of any pattern. -/
theorem occ_pyStrip_le (pat s : Str) :
    occCount pat (pyStrip s) ≤ occCount pat s := by
  have hsplit1 : s = s.takeWhile isPySpace ++ s.dropWhile isPySpace :=
    (List.takeWhile_append_dropWhile isPySpace s).symm
  have hsplit2 : s.dropWhile isPySpace
      = pyStrip s
        ++ ((s.dropWhile isPySpace).reverse.takeWhile isPySpace).reverse := by
    conv_lhs => rw [← List.reverse_reverse (s.dropWhile isPySpace),
      ← List.takeWhile_append_dropWhile isPySpace
        (s.dropWhile isPySpace).reverse]
    rw [List.reverse_append]
    rfl
  calc occCount pat (pyStrip s)
      ≤ occCount pat (pyStrip s
          ++ ((s.dropWhile isPySpace).reverse.takeWhile isPySpace).reverse) :=
        occ_append_left_ge _ _ _
    _ = occCount pat (s.dropWhile isPySpace) := by rw [← hsplit2]
    _ ≤ occCount pat (s.takeWhile isPySpace ++ s.dropWhile isPySpace) :=
        occ_append_ge _ _ _
    _ = occCount pat s := by rw [← hsplit1]

/-- C7 counterexample: the replacement payload that
`create_charts.py` actually splices verbatim for the top-wins chart — a
complete plotly HTML document wrapped in a div — contains `</body>`, and
on the concrete report `docCharts` the patched output contains three
`</body>` markers where the original had one: the inner fragment's
unescaped `</body>`/`</html>` leak into the output. -/
theorem C7_counterexample :
    strContains (divWrapPlain (plotlyFullHtml chartInnerB)) bodyClose = true ∧
    strContains (divWrapPlain (plotlyFullHtml chartInnerB)) htmlClose = true ∧
    occCount bodyClose (update_html_with_charts (plotlyFullHtml chartInnerA)
      (plotlyFullHtml chartInnerB) (plotlyFullHtml chartInnerC) docCharts) = 3 ∧
    occCount bodyClose docCharts = 1 := by
  refine ⟨by decide, by decide, by decide, by decide⟩

/-- C7 (amended): only the inner-content extraction strategy
(`extract_chart_div`) is splice-safe: on any renderer output of the form
`pre ++ <body> ++ inner ++ </body> ++ post` whose markers occur uniquely,
it returns exactly the stripped inner content, which therefore contains
no `</body>` at all and no `</html>` unless the inner content itself had
one; the verbatim strategy instead splices the renderer's whole document,
`</body></html>` included. -/
theorem C7_extract_inner (pre inner post : Str)
    (h1 : occCount bodyOpen
        (pre ++ (bodyOpen ++ (inner ++ (bodyClose ++ post)))) = 1)
    (h2 : occCount bodyClose (inner ++ (bodyClose ++ post)) = 1) :
    extract_chart_div (pre ++ (bodyOpen ++ (inner ++ (bodyClose ++ post))))
        = pyStrip inner ∧
    occCount bodyClose (pyStrip inner) = 0 ∧
    (occCount htmlClose inner = 0 → occCount htmlClose (pyStrip inner) = 0) := by
  have hbo : bodyOpen ≠ [] := by decide
  have hbc : bodyClose ≠ [] := by decide
  have hsplit1 : pySplit bodyOpen
      (pre ++ (bodyOpen ++ (inner ++ (bodyClose ++ post))))
      = [pre, inner ++ (bodyClose ++ post)] :=
    pySplit_unique bodyOpen pre _ hbo h1
  have hsplit2 : pySplit bodyClose (inner ++ (bodyClose ++ post))
      = [inner, post] :=
    pySplit_unique bodyClose inner post hbc h2
  have hcont1 : strContains
      (pre ++ (bodyOpen ++ (inner ++ (bodyClose ++ post)))) bodyOpen = true :=
    occ_pos_contains _ _ (by omega)
  have hcont2 : strContains
      (pre ++ (bodyOpen ++ (inner ++ (bodyClose ++ post)))) bodyClose = true := by
    apply occ_pos_contains
    have ha := occ_append_ge bodyClose pre (bodyOpen ++ (inner ++ (bodyClose ++ post)))
    have hb := occ_append_ge bodyClose bodyOpen (inner ++ (bodyClose ++ post))
    omega
  have hinner0 : occCount bodyClose inner = 0 := by
    have := occ_prefix_add bodyClose inner post hbc
    omega
  refine ⟨?_, ?_, ?_⟩
  · unfold extract_chart_div
    rw [hcont1, hcont2]
    simp only [Bool.and_self, if_true]
    rw [hsplit1]
    simp only [List.getD_cons_succ, List.getD_cons_zero]
    rw [hsplit2]
    simp
  · have := occ_pyStrip_le bodyClose inner
    omega
  · intro h
    have := occ_pyStrip_le htmlClose inner
    omega

/-- Witness for `C7_extract_inner` on a concrete plotly-shaped chart
document. -/
theorem C7_extract_inner_witness :
    occCount bodyOpen ("<html><head></head>".data
        ++ (bodyOpen ++ (chartInnerA ++ (bodyClose ++ htmlClose)))) = 1 ∧
    occCount bodyClose (chartInnerA ++ (bodyClose ++ htmlClose)) = 1 ∧
    (extract_chart_div ("<html><head></head>".data
        ++ (bodyOpen ++ (chartInnerA ++ (bodyClose ++ htmlClose))))
        = pyStrip chartInnerA ∧
      occCount bodyClose (pyStrip chartInnerA) = 0 ∧
      (occCount htmlClose chartInnerA = 0 →
        occCount htmlClose (pyStrip chartInnerA) = 0)) :=
  ⟨by decide, by decide,
    C7_extract_inner _ chartInnerA _ (by decide) (by decide)⟩

/-- C9 counterexample: on a document with no `</table>` anchor,
`create_charts.py` leaves the document unchanged — the summary chart
section is silently dropped, not placed at the end of the document — and
on a document with no `</body>` anchor, `create_final_charts.py`'s
summary insertion is likewise a silent no-op. -/
theorem C9_counterexample :
    insertAfterTable (chartSection fragS) docNoTable = docNoTable ∧
    docNoTable ≠ docNoTable ++ chartSection fragS ∧
    insertBeforeBodyClose fragX docNoBody = docNoBody ∧
    docNoBody ≠ docNoBody ++ fragX := by
  refine ⟨by decide, by decide, by decide, by decide⟩

/-- C9 (amended): when the expected insertion anchor is missing, the
content is silently dropped, not inserted at a fallback point: with no
`'</table>'` in the document the chart-section insertion of
`create_charts.py` returns the document unchanged, and with no
`'</body>'` the summary insertion of `create_final_charts.py` returns
the document unchanged. -/
theorem C9_missing_anchor (doc sect doc2 stats : Str)
    (hnt : strContains doc tableEndStr = false)
    (hnb : occCount bodyClose doc2 = 0) :
    insertAfterTable sect doc = doc ∧
    insertBeforeBodyClose stats doc2 = doc2 := by
  constructor
  · simp [insertAfterTable, hnt]
  · unfold insertBeforeBodyClose replaceAll
    exact replaceAllF_no_occ _ _ _ _ hnb

/-- Witness for `C9_missing_anchor` on concrete anchor-free documents. -/
theorem C9_missing_anchor_witness :
    strContains docNoTable tableEndStr = false ∧
    occCount bodyClose docNoBody = 0 ∧
    (insertAfterTable (chartSection fragS) docNoTable = docNoTable ∧
      insertBeforeBodyClose fragX docNoBody = docNoBody) :=
  ⟨by decide, by decide,
    C9_missing_anchor docNoTable (chartSection fragS) docNoBody fragX
      (by decide) (by decide)⟩

/-- C5 counterexample: on the concrete 2-image document `doc2C` with
three chart fragments, `create_final_charts.py` replaces no image with
any fragment at all — both found images are turned into placeholder
markers and the fragments are absent from the output — contradicting
"only the available matches are replaced". -/
theorem C5_counterexample :
    (patchImagesFinal fragE fragP fragD doc2C).2 = 2 ∧
    strContains (patchImagesFinal fragE fragP fragD doc2C).1
        (divWrapExec fragE) = false ∧
    strContains (patchImagesFinal fragE fragP fragD doc2C).1
        (imgAA) = false ∧
    strContains (patchImagesFinal fragE fragP fragD doc2C).1
        (placeholder 0) = true := by
  refine ⟨by decide, by decide, by decide, by decide⟩

/-- C5 (amended): when fewer than 3 images are found,
`create_final_charts.py` still reports the shortfall with the exact
found-vs-expected counts and still writes the output, but the partially
patched document contains no chart fragment: each found image has been
replaced by its numbered placeholder marker and the placeholder-to-chart
swap is skipped entirely. -/
theorem C5_shortfall (t0 t1 t2 g0 g1 e p d : Str)
    (hg0 : g0 ≠ []) (hg1 : g1 ≠ [])
    (hfa : findall matchFinalAt (t0 ++ g0 ++ t1 ++ g1 ++ t2) = [g0, g1])
    (h0 : occCount g0 (t0 ++ g0 ++ t1 ++ g1 ++ t2) = 1)
    (h1 : occCount g1 (t0 ++ placeholder 0 ++ t1 ++ g1 ++ t2) = 1) :
    patchImagesFinal e p d (t0 ++ g0 ++ t1 ++ g1 ++ t2)
        = (t0 ++ placeholder 0 ++ t1 ++ placeholder 1 ++ t2, 2) ∧
    finalImageWarnings
        (patchImagesFinal e p d (t0 ++ g0 ++ t1 ++ g1 ++ t2)).2
      = ["Warning: Expected 3 images, found 2"] ∧
    ∀ c stats : Str,
      ((runFinalScript e p d stats (fsOf c (t0 ++ g0 ++ t1 ++ g1 ++ t2)))
          outputFinalPath).isSome = true := by
  have e0 : t0 ++ g0 ++ t1 ++ g1 ++ t2
      = t0 ++ (g0 ++ (t1 ++ (g1 ++ t2))) := by
    simp [List.append_assoc]
  have h0' : occCount g0 (t0 ++ (g0 ++ (t1 ++ (g1 ++ t2)))) = 1 := by
    rw [← e0]
    exact h0
  have s0 : replaceFirst (t0 ++ g0 ++ t1 ++ g1 ++ t2) g0 (placeholder 0)
      = t0 ++ placeholder 0 ++ t1 ++ g1 ++ t2 := by
    rw [e0, replaceFirst_unique t0 g0 (t1 ++ (g1 ++ t2)) (placeholder 0)
      hg0 h0']
    simp [List.append_assoc]
  have e1 : t0 ++ placeholder 0 ++ t1 ++ g1 ++ t2
      = (t0 ++ (placeholder 0 ++ t1)) ++ (g1 ++ t2) := by
    simp [List.append_assoc]
  have h1' : occCount g1 ((t0 ++ (placeholder 0 ++ t1)) ++ (g1 ++ t2)) = 1 := by
    rw [← e1]
    exact h1
  have s1 : replaceFirst (t0 ++ placeholder 0 ++ t1 ++ g1 ++ t2) g1
        (placeholder 1)
      = t0 ++ placeholder 0 ++ t1 ++ placeholder 1 ++ t2 := by
    rw [e1, replaceFirst_unique (t0 ++ (placeholder 0 ++ t1)) g1 t2
      (placeholder 1) hg1 h1']
    simp [List.append_assoc]
  have hfr : find_and_replace_images (t0 ++ g0 ++ t1 ++ g1 ++ t2)
      = (t0 ++ placeholder 0 ++ t1 ++ placeholder 1 ++ t2, 2) := by
    unfold find_and_replace_images
    rw [hfa]
    simp only [phReplaceLoop]
    rw [s0, s1]
    simp
  have hmain : patchImagesFinal e p d (t0 ++ g0 ++ t1 ++ g1 ++ t2)
      = (t0 ++ placeholder 0 ++ t1 ++ placeholder 1 ++ t2, 2) := by
    unfold patchImagesFinal
    rw [hfr]
    simp
  refine ⟨hmain, ?_, ?_⟩
  · rw [hmain]
    show finalImageWarnings 2 = ["Warning: Expected 3 images, found 2"]
    decide
  · intro c stats
    unfold runFinalScript fsOf
    rw [if_pos rfl, if_neg (by decide), if_pos rfl]
    show (if outputFinalPath = outputFinalPath then
        some (update_html_with_charts_final e p d stats
          (t0 ++ g0 ++ t1 ++ g1 ++ t2))
      else
        (if outputFinalPath = inputCsvPath then some c
         else if outputFinalPath = inputHtmlPath then
           some (t0 ++ g0 ++ t1 ++ g1 ++ t2) else none)).isSome = true
    rw [if_pos rfl]
    rfl

/-- Witness for `C5_shortfall` on the concrete 2-image document. -/
theorem C5_shortfall_witness :
    imgAA ≠ [] ∧ imgBB ≠ [] ∧
    findall matchFinalAt (tA ++ imgAA ++ tB
        ++ imgBB ++ tC)
      = [imgAA, imgBB] ∧
    occCount (imgAA) (tA ++ imgAA
        ++ tB ++ imgBB ++ tC) = 1 ∧
    occCount (imgBB) (tA ++ placeholder 0 ++ tB
        ++ imgBB ++ tC) = 1 ∧
    (patchImagesFinal fragE fragP fragD (tA
          ++ imgAA ++ tB ++ imgBB
          ++ tC)
        = (tA ++ placeholder 0 ++ tB ++ placeholder 1
            ++ tC, 2) ∧
      finalImageWarnings (patchImagesFinal fragE fragP fragD
          (tA ++ imgAA ++ tB
            ++ imgBB ++ tC)).2
        = ["Warning: Expected 3 images, found 2"] ∧
      ∀ c stats : Str,
        ((runFinalScript fragE fragP fragD stats
            (fsOf c (tA ++ imgAA ++ tB
              ++ imgBB ++ tC)))
            outputFinalPath).isSome = true) :=
  ⟨by decide, by decide, by decide, by decide, by decide,
    C5_shortfall tA tB tC (imgAA)
      (imgBB) fragE fragP fragD
      (by decide) (by decide) (by decide) (by decide) (by decide)⟩

/-- C1 counterexample: on the concrete 4-image document `doc4C` with 3
fragments, the fourth match — which the claim requires to be left
untouched — is destroyed: it no longer occurs in the output, having been
replaced by the marker `__CHART_PLACEHOLDER_3__`. -/
theorem C1_counterexample :
    (patchImagesFinal fragE fragP fragD doc4C).2 = 4 ∧
    strContains doc4C (imgDD) = true ∧
    strContains (patchImagesFinal fragE fragP fragD doc4C).1
        (imgDD) = false ∧
    strContains (patchImagesFinal fragE fragP fragD doc4C).1
        (placeholder 3) = true := by
  refine ⟨by decide, by decide, by decide, by decide⟩

/-- C1 (amended): the find-and-replace pipeline of
`create_final_charts.py` first replaces every pattern match, in
left-to-right order, by a numbered placeholder, and then — when at least
3 matches were found — replaces placeholders 0, 1, 2 by the three chart
containers, so the i-th match ends up replaced by the i-th fragment in
document order; matches beyond the fragment count end up as placeholder
markers, not as the untouched original images. In particular a document
with exactly 3 image matches and 3 fragments yields each fragment exactly
once, in the original image order, with no image placeholder remaining. -/
theorem C1_patch_in_order (t0 t1 t2 t3 g0 g1 g2 e p d : Str)
    (hg0 : g0 ≠ []) (hg1 : g1 ≠ []) (hg2 : g2 ≠ [])
    (hfa : findall matchFinalAt
        (t0 ++ g0 ++ t1 ++ g1 ++ t2 ++ g2 ++ t3) = [g0, g1, g2])
    (h0 : occCount g0 (t0 ++ g0 ++ t1 ++ g1 ++ t2 ++ g2 ++ t3) = 1)
    (h1 : occCount g1
        (t0 ++ placeholder 0 ++ t1 ++ g1 ++ t2 ++ g2 ++ t3) = 1)
    (h2 : occCount g2
        (t0 ++ placeholder 0 ++ t1 ++ placeholder 1 ++ t2 ++ g2 ++ t3) = 1)
    (hp0 : occCount (placeholder 0) (t0 ++ placeholder 0 ++ t1
        ++ placeholder 1 ++ t2 ++ placeholder 2 ++ t3) = 1)
    (hp1 : occCount (placeholder 1) (t0 ++ divWrapExec e ++ t1
        ++ placeholder 1 ++ t2 ++ placeholder 2 ++ t3) = 1)
    (hp2 : occCount (placeholder 2) (t0 ++ divWrapExec e ++ t1
        ++ divWrapPerf p ++ t2 ++ placeholder 2 ++ t3) = 1)
    (hnone : findall matchFinalAt (t0 ++ divWrapExec e ++ t1
        ++ divWrapPerf p ++ t2 ++ divWrapDist d ++ t3) = []) :
    patchImagesFinal e p d (t0 ++ g0 ++ t1 ++ g1 ++ t2 ++ g2 ++ t3)
        = (t0 ++ divWrapExec e ++ t1 ++ divWrapPerf p ++ t2
            ++ divWrapDist d ++ t3, 3) ∧
    findall matchFinalAt
        (patchImagesFinal e p d (t0 ++ g0 ++ t1 ++ g1 ++ t2 ++ g2 ++ t3)).1
      = [] := by
  have e0 : t0 ++ g0 ++ t1 ++ g1 ++ t2 ++ g2 ++ t3
      = t0 ++ (g0 ++ (t1 ++ (g1 ++ (t2 ++ (g2 ++ t3))))) := by
    simp [List.append_assoc]
  have h0' : occCount g0
      (t0 ++ (g0 ++ (t1 ++ (g1 ++ (t2 ++ (g2 ++ t3)))))) = 1 := by
    rw [← e0]
    exact h0
  have s0 : replaceFirst (t0 ++ g0 ++ t1 ++ g1 ++ t2 ++ g2 ++ t3) g0
        (placeholder 0)
      = t0 ++ placeholder 0 ++ t1 ++ g1 ++ t2 ++ g2 ++ t3 := by
    rw [e0, replaceFirst_unique t0 g0 (t1 ++ (g1 ++ (t2 ++ (g2 ++ t3))))
      (placeholder 0) hg0 h0']
    simp [List.append_assoc]
  have e1 : t0 ++ placeholder 0 ++ t1 ++ g1 ++ t2 ++ g2 ++ t3
      = (t0 ++ (placeholder 0 ++ t1)) ++ (g1 ++ (t2 ++ (g2 ++ t3))) := by
    simp [List.append_assoc]
  have h1' : occCount g1 ((t0 ++ (placeholder 0 ++ t1))
      ++ (g1 ++ (t2 ++ (g2 ++ t3)))) = 1 := by
    rw [← e1]
    exact h1
  have s1 : replaceFirst (t0 ++ placeholder 0 ++ t1 ++ g1 ++ t2 ++ g2 ++ t3)
        g1 (placeholder 1)
      = t0 ++ placeholder 0 ++ t1 ++ placeholder 1 ++ t2 ++ g2 ++ t3 := by
    rw [e1, replaceFirst_unique (t0 ++ (placeholder 0 ++ t1)) g1 _
      (placeholder 1) hg1 h1']
    simp [List.append_assoc]
  have e2 : t0 ++ placeholder 0 ++ t1 ++ placeholder 1 ++ t2 ++ g2 ++ t3
      = (t0 ++ (placeholder 0 ++ (t1 ++ (placeholder 1 ++ t2))))
          ++ (g2 ++ t3) := by
    simp [List.append_assoc]
  have h2' : occCount g2 ((t0 ++ (placeholder 0 ++ (t1 ++ (placeholder 1
      ++ t2)))) ++ (g2 ++ t3)) = 1 := by
    rw [← e2]
    exact h2
  have s2 : replaceFirst
        (t0 ++ placeholder 0 ++ t1 ++ placeholder 1 ++ t2 ++ g2 ++ t3)
        g2 (placeholder 2)
      = t0 ++ placeholder 0 ++ t1 ++ placeholder 1 ++ t2 ++ placeholder 2
          ++ t3 := by
    rw [e2, replaceFirst_unique
      (t0 ++ (placeholder 0 ++ (t1 ++ (placeholder 1 ++ t2)))) g2 t3
      (placeholder 2) hg2 h2']
    simp [List.append_assoc]
  have hfr : find_and_replace_images
        (t0 ++ g0 ++ t1 ++ g1 ++ t2 ++ g2 ++ t3)
      = (t0 ++ placeholder 0 ++ t1 ++ placeholder 1 ++ t2 ++ placeholder 2
          ++ t3, 3) := by
    unfold find_and_replace_images
    rw [hfa]
    simp only [phReplaceLoop]
    rw [s0, s1, s2]
    simp
  have hc0 : strContains (t0 ++ placeholder 0 ++ t1 ++ placeholder 1 ++ t2
      ++ placeholder 2 ++ t3) (placeholder 0) = true :=
    occ_pos_contains _ _ (by omega)
  have e2b : t0 ++ placeholder 0 ++ t1 ++ placeholder 1 ++ t2
        ++ placeholder 2 ++ t3
      = t0 ++ (placeholder 0 ++ (t1 ++ (placeholder 1
          ++ (t2 ++ (placeholder 2 ++ t3))))) := by
    simp [List.append_assoc]
  have hp0' : occCount (placeholder 0) (t0 ++ (placeholder 0 ++ (t1
      ++ (placeholder 1 ++ (t2 ++ (placeholder 2 ++ t3)))))) = 1 := by
    rw [← e2b]
    exact hp0
  have r0 : replaceAll (placeholder 0) (divWrapExec e)
        (t0 ++ placeholder 0 ++ t1 ++ placeholder 1 ++ t2 ++ placeholder 2
          ++ t3)
      = t0 ++ divWrapExec e ++ t1 ++ placeholder 1 ++ t2 ++ placeholder 2
          ++ t3 := by
    rw [e2b, replaceAll_unique t0 (placeholder 0)
      (t1 ++ (placeholder 1 ++ (t2 ++ (placeholder 2 ++ t3))))
      (divWrapExec e) (by decide) hp0']
    simp [List.append_assoc]
  have hc1 : strContains (t0 ++ divWrapExec e ++ t1 ++ placeholder 1 ++ t2
      ++ placeholder 2 ++ t3) (placeholder 1) = true :=
    occ_pos_contains _ _ (by omega)
  have e3 : t0 ++ divWrapExec e ++ t1 ++ placeholder 1 ++ t2
        ++ placeholder 2 ++ t3
      = (t0 ++ (divWrapExec e ++ t1))
          ++ (placeholder 1 ++ (t2 ++ (placeholder 2 ++ t3))) := by
    simp [List.append_assoc]
  have hp1' : occCount (placeholder 1) ((t0 ++ (divWrapExec e ++ t1))
      ++ (placeholder 1 ++ (t2 ++ (placeholder 2 ++ t3)))) = 1 := by
    rw [← e3]
    exact hp1
  have r1 : replaceAll (placeholder 1) (divWrapPerf p)
        (t0 ++ divWrapExec e ++ t1 ++ placeholder 1 ++ t2 ++ placeholder 2
          ++ t3)
      = t0 ++ divWrapExec e ++ t1 ++ divWrapPerf p ++ t2 ++ placeholder 2
          ++ t3 := by
    rw [e3, replaceAll_unique (t0 ++ (divWrapExec e ++ t1)) (placeholder 1)
      _ (divWrapPerf p) (by decide) hp1']
    simp [List.append_assoc]
  have hc2 : strContains (t0 ++ divWrapExec e ++ t1 ++ divWrapPerf p ++ t2
      ++ placeholder 2 ++ t3) (placeholder 2) = true :=
    occ_pos_contains _ _ (by omega)
  have e4 : t0 ++ divWrapExec e ++ t1 ++ divWrapPerf p ++ t2
        ++ placeholder 2 ++ t3
      = (t0 ++ (divWrapExec e ++ (t1 ++ (divWrapPerf p ++ t2))))
          ++ (placeholder 2 ++ t3) := by
    simp [List.append_assoc]
  have hp2' : occCount (placeholder 2) ((t0 ++ (divWrapExec e
      ++ (t1 ++ (divWrapPerf p ++ t2)))) ++ (placeholder 2 ++ t3)) = 1 := by
    rw [← e4]
    exact hp2
  have r2 : replaceAll (placeholder 2) (divWrapDist d)
        (t0 ++ divWrapExec e ++ t1 ++ divWrapPerf p ++ t2 ++ placeholder 2
          ++ t3)
      = t0 ++ divWrapExec e ++ t1 ++ divWrapPerf p ++ t2 ++ divWrapDist d
          ++ t3 := by
    rw [e4, replaceAll_unique
      (t0 ++ (divWrapExec e ++ (t1 ++ (divWrapPerf p ++ t2))))
      (placeholder 2) t3 (divWrapDist d) (by decide) hp2']
    simp [List.append_assoc]
  have hswap : swapLoop 0 [divWrapExec e, divWrapPerf p, divWrapDist d]
        (t0 ++ placeholder 0 ++ t1 ++ placeholder 1 ++ t2 ++ placeholder 2
          ++ t3)
      = t0 ++ divWrapExec e ++ t1 ++ divWrapPerf p ++ t2 ++ divWrapDist d
          ++ t3 := by
    simp only [swapLoop]
    rw [hc0, if_pos rfl, r0, hc1, if_pos rfl, r1, hc2, if_pos rfl, r2]
  have hmain : patchImagesFinal e p d
        (t0 ++ g0 ++ t1 ++ g1 ++ t2 ++ g2 ++ t3)
      = (t0 ++ divWrapExec e ++ t1 ++ divWrapPerf p ++ t2 ++ divWrapDist d
          ++ t3, 3) := by
    unfold patchImagesFinal
    rw [hfr]
    simp only [le_refl, if_true]
    rw [hswap]
  refine ⟨hmain, ?_⟩
  rw [hmain]
  exact hnone

/-- Witness for `C1_patch_in_order` on the concrete 3-image document
`doc3C` with fragments `E`, `P`, `D`. -/
theorem C1_patch_in_order_witness :
    imgAA ≠ [] ∧ imgBB ≠ [] ∧
    imgCC ≠ [] ∧
    findall matchFinalAt (tA ++ imgAA ++ tB
        ++ imgBB ++ tC ++ imgCC
        ++ tD)
      = [imgAA, imgBB, imgCC] ∧
    (patchImagesFinal fragE fragP fragD (tA
          ++ imgAA ++ tB ++ imgBB
          ++ tC ++ imgCC ++ tD)
        = (tA ++ divWrapExec fragE ++ tB
            ++ divWrapPerf fragP ++ tC ++ divWrapDist fragD
            ++ tD, 3) ∧
      findall matchFinalAt (patchImagesFinal fragE fragP fragD
          (tA ++ imgAA ++ tB
            ++ imgBB ++ tC ++ imgCC
            ++ tD)).1
        = []) :=
  ⟨by decide, by decide, by decide, by decide,
    C1_patch_in_order tA tB tC tD
      (imgAA) (imgBB) (imgCC)
      fragE fragP fragD
      (by decide) (by decide) (by decide) (by decide) (by decide)
      (by decide) (by decide) (by decide) (by decide) (by decide)
      (by decide)⟩

/-- C8: each script run is a pure function on the filesystem that writes
only its own distinct output path: the source HTML document and the CSV
are unchanged by a run of `create_charts.py` or `create_final_charts.py`
over any filesystem (including those where a read fails and the run
aborts before writing), the output paths differ from both input paths,
and on a filesystem holding the two inputs the patched document is
written to the output path. -/
theorem C8_inputs_untouched (o t s e p d stats c doc : Str) (fs : FS) :
    runChartsScript o t s fs inputHtmlPath = fs inputHtmlPath ∧
    runChartsScript o t s fs inputCsvPath = fs inputCsvPath ∧
    runFinalScript e p d stats fs inputHtmlPath = fs inputHtmlPath ∧
    runFinalScript e p d stats fs inputCsvPath = fs inputCsvPath ∧
    outputChartsPath ≠ inputHtmlPath ∧ outputChartsPath ≠ inputCsvPath ∧
    outputFinalPath ≠ inputHtmlPath ∧ outputFinalPath ≠ inputCsvPath ∧
    runChartsScript o t s (fsOf c doc) outputChartsPath
        = some (update_html_with_charts o t s doc) ∧
    runFinalScript e p d stats (fsOf c doc) outputFinalPath
        = some (update_html_with_charts_final e p d stats doc) := by
  refine ⟨?_, ?_, ?_, ?_, by decide, by decide, by decide, by decide,
    ?_, ?_⟩
  · unfold runChartsScript
    cases hc : fs inputCsvPath <;> cases hh : fs inputHtmlPath <;>
      simp [hc, hh]
    exact fun h => absurd h (by decide)
  · unfold runChartsScript
    cases hc : fs inputCsvPath <;> cases hh : fs inputHtmlPath <;>
      simp [hc, hh]
    exact fun h => absurd h (by decide)
  · unfold runFinalScript
    cases hc : fs inputCsvPath <;> cases hh : fs inputHtmlPath <;>
      simp [hc, hh]
    exact fun h => absurd h (by decide)
  · unfold runFinalScript
    cases hc : fs inputCsvPath <;> cases hh : fs inputHtmlPath <;>
      simp [hc, hh]
    exact fun h => absurd h (by decide)
  · unfold runChartsScript fsOf
    rw [if_pos rfl, if_neg (by decide), if_pos rfl]
    show (if outputChartsPath = outputChartsPath then
        some (update_html_with_charts o t s doc)
      else
        (if outputChartsPath = inputCsvPath then some c
         else if outputChartsPath = inputHtmlPath then some doc else none))
      = some (update_html_with_charts o t s doc)
    rw [if_pos rfl]
  · unfold runFinalScript fsOf
    rw [if_pos rfl, if_neg (by decide), if_pos rfl]
    show (if outputFinalPath = outputFinalPath then
        some (update_html_with_charts_final e p d stats doc)
      else
        (if outputFinalPath = inputCsvPath then some c
         else if outputFinalPath = inputHtmlPath then some doc else none))
      = some (update_html_with_charts_final e p d stats doc)
    rw [if_pos rfl]

/-- Instantiation of `C8_inputs_untouched` on a concrete two-file
filesystem. -/
theorem C8_inputs_untouched_witness :
    runChartsScript fragE fragP fragD (fsOf fragS docCharts) inputHtmlPath
        = fsOf fragS docCharts inputHtmlPath ∧
    runChartsScript fragE fragP fragD (fsOf fragS docCharts) inputCsvPath
        = fsOf fragS docCharts inputCsvPath ∧
    runFinalScript fragE fragP fragD fragX (fsOf fragS docCharts)
        inputHtmlPath = fsOf fragS docCharts inputHtmlPath ∧
    runFinalScript fragE fragP fragD fragX (fsOf fragS docCharts)
        inputCsvPath = fsOf fragS docCharts inputCsvPath ∧
    outputChartsPath ≠ inputHtmlPath ∧ outputChartsPath ≠ inputCsvPath ∧
    outputFinalPath ≠ inputHtmlPath ∧ outputFinalPath ≠ inputCsvPath ∧
    runChartsScript fragE fragP fragD (fsOf fragS docCharts)
        outputChartsPath
      = some (update_html_with_charts fragE fragP fragD docCharts) ∧
    runFinalScript fragE fragP fragD fragX (fsOf fragS docCharts)
        outputFinalPath
      = some (update_html_with_charts_final fragE fragP fragD fragX
          docCharts) :=
  C8_inputs_untouched fragE fragP fragD fragE fragP fragD fragX fragS
    docCharts (fsOf fragS docCharts)

end UAGC
